import Mathlib

set_option maxHeartbeats 1600000
set_option maxRecDepth 100000

/-!
Verification development for the seminar-aggregation scraper (scraper.py).

The Python source is shallowly embedded: strings become `List Char` / `String`,
the regular expressions of the source are compiled by hand into deterministic
character-list matchers (each determinisation step is justified in a comment at
the definition), HTML documents become a `Node` tree with BeautifulSoup-style
query functions, network fetches become explicit oracles
(`String → Option Node`), and Python `date` objects are represented by their
ISO string (the only way the program consumes them).
-/

namespace Seminars

/-! Character-level helpers modelling Python string and regex semantics. -/

/-- Python whitespace (the characters matched by str.strip and regex \s that
can occur in this program's data; NBSP is replaced before any strip runs). -/
def isWsChar (c : Char) : Bool :=
  c = ' ' || c = '\t' || c = '\n' || c = '\r' || c = Char.ofNat 11 || c = Char.ofNat 12

def isDigitChar (c : Char) : Bool := '0' ≤ c && c ≤ '9'

def isAsciiAlpha (c : Char) : Bool := ('A' ≤ c && c ≤ 'Z') || ('a' ≤ c && c ≤ 'z')

def isUmlautChar (c : Char) : Bool :=
  c = 'Ä' || c = 'Ö' || c = 'Ü' || c = 'ä' || c = 'ö' || c = 'ü'

/-- The character class [A-Za-zÄÖÜäöü] of the candidate date patterns. -/
def letterClass (c : Char) : Bool := isAsciiAlpha c || isUmlautChar c

/-- The character class [A-Za-zÄÖÜäöü.] of the anchored date regexes. -/
def letterDotClass (c : Char) : Bool := letterClass c || c = '.'

/-- Python regex word character (\w) restricted to the alphabet this program
can encounter; used for the \b boundaries of the Uhr-stripping regex. -/
def isWordChar (c : Char) : Bool :=
  isAsciiAlpha c || isDigitChar c || c = '_' || isUmlautChar c || c = 'ß'

/-- Python str.lower restricted to the alphabet this program can encounter. -/
def lcChar (c : Char) : Char :=
  if 'A' ≤ c && c ≤ 'Z' then Char.ofNat (c.toNat + 32)
  else if c = 'Ä' then 'ä'
  else if c = 'Ö' then 'ö'
  else if c = 'Ü' then 'ü'
  else c

def lcList (l : List Char) : List Char := l.map lcChar

def lstripL (l : List Char) : List Char := l.dropWhile isWsChar

def rstripL (l : List Char) : List Char := (l.reverse.dropWhile isWsChar).reverse

/-- Python str.strip(). -/
def pstrip (l : List Char) : List Char := rstripL (lstripL l)

/-- Python str.strip(chars): remove characters satisfying p from both ends. -/
def stripCharsL (p : Char → Bool) (l : List Char) : List Char :=
  ((l.dropWhile p).reverse.dropWhile p).reverse

/-- The character replacements of parse_date line 177: NBSP to space, en and
em dashes to "-". -/
def normChar (c : Char) : Char :=
  if c = Char.ofNat 0xa0 then ' '
  else if c = Char.ofNat 0x2013 then '-'
  else if c = Char.ofNat 0x2014 then '-'
  else c

/-! Removal of a word-bounded "Uhr" (re.sub r"\bUhr\b", case-insensitive).
The scan walks the string once, tracking whether the previous character is a
word character (= whether a \b boundary precedes the current position). -/

/-- Does a word-bounded, case-insensitive "uhr" start at the head of l
(the boundary on the left being the caller's business)? -/
def uhrHere : List Char → Bool
  | c1 :: c2 :: c3 :: rest =>
    lcChar c1 = 'u' && lcChar c2 = 'h' && lcChar c3 = 'r' &&
      (match rest with
       | [] => true
       | d :: _ => !isWordChar d)
  | _ => false

def removeUhrGo (prev : Bool) : List Char → List Char
  | [] => []
  | [c] => [c]
  | [c, c2] => c :: removeUhrGo (isWordChar c) [c2]
  | c :: c2 :: c3 :: rest =>
    if !prev && uhrHere (c :: c2 :: c3 :: rest) then removeUhrGo true rest
    else c :: removeUhrGo (isWordChar c) (c2 :: c3 :: rest)

/-- re.sub(r"\bUhr\b", "", s, flags=IGNORECASE). At the start of the string
the previous position is a non-word boundary, hence prev = false. -/
def removeUhr (l : List Char) : List Char := removeUhrGo false l

/-! The weekday-prefix regex WEEKDAY_PREFIX_RE: an ordered alternation of the
tokens below (case-insensitive; the "." inside a token is a regex wildcard
because the source does not escape it), followed by \s*,?\s*. -/

/-- WEEKDAY_PREFIXES of the source, in source order. -/
def WEEKDAY_TOKENS : List String :=
  ["montag", "dienstag", "mittwoch", "donnerstag", "freitag", "samstag",
   "sonntag", "monday", "tuesday", "wednesday", "thursday", "friday",
   "saturday", "sunday", "mo.", "di.", "mi.", "do.", "fr.", "sa.", "so.",
   "mon.", "tue.", "wed.", "thu.", "fri.", "sat.", "sun."]

/-- One pattern character against one input character: "." is the regex
wildcard (any character but newline), letters match case-insensitively. -/
def charMatchPat (p c : Char) : Bool :=
  if p = '.' then c ≠ '\n' else lcChar c = lcChar p

def matchTok : List Char → List Char → Option (List Char)
  | [], l => some l
  | _ :: _, [] => none
  | p :: ps, c :: cs => if charMatchPat p c then matchTok ps cs else none

/-- First token of the ordered alternation that matches a prefix of l
(Python regex alternation is leftmost-alternative, not longest). Since the
trailing \s*,?\s* always matches (possibly empty), the alternation alone
decides whether the whole regex matches. -/
def firstTok : List String → List Char → Option (List Char)
  | [], _ => none
  | t :: ts, l =>
    match matchTok t.data l with
    | some r => some r
    | none => firstTok ts l

/-- WEEKDAY_PREFIX_RE.match(l) viewed as a Bool. -/
def weekdayHit (l : List Char) : Bool := (firstTok WEEKDAY_TOKENS l).isSome

/-- Consume \s*,?\s* greedily. Deterministic: whitespace and "," are
disjoint, so the greedy scan never needs to backtrack. -/
def sepAfterTok (r : List Char) : List Char :=
  let r1 := r.dropWhile isWsChar
  let r2 := match r1 with
    | ',' :: t => t
    | _ => r1
  r2.dropWhile isWsChar

/-- WEEKDAY_PREFIX_RE.sub("", l): the regex is anchored with ^, so at most
one replacement happens, at position 0. -/
def weekdaySub (l : List Char) : List Char :=
  match firstTok WEEKDAY_TOKENS l with
  | some r => sepAfterTok r
  | none => l

/-- re.search(r"\d{4}", l): is there a run of four consecutive digits? -/
def digitRunGo : Nat → List Char → Bool
  | _, [] => false
  | run, c :: cs =>
    if isDigitChar c then
      if 4 ≤ run + 1 then true else digitRunGo (run + 1) cs
    else digitRunGo 0 cs

def has4Digits (l : List Char) : Bool := digitRunGo 0 l

/-- Lines 181-185 of parse_date: if the text contains a comma and the portion
before the first comma has no 4-digit run, and that portion (stripped, with a
space appended) matches the weekday regex, keep only the stripped portion
after the comma; otherwise keep the string unchanged. -/
def commaStep (l : List Char) : List Char :=
  if l.contains ',' then
    let head := l.takeWhile (fun c => c ≠ ',')
    let tail := (l.dropWhile (fun c => c ≠ ',')).drop 1
    if !has4Digits head then
      if weekdayHit (pstrip head ++ [' ']) then pstrip tail else l
    else l
  else l

/-! Deterministic matchers for the four DATE_CANDIDATE_PATTERNS and the four
anchored branch regexes of parse_date. Each \d{1,2} is compiled to maximal
munch of at most two digits: giving back the second digit never helps,
because every occurrence of \d{1,2} is followed by a non-digit requirement
("." , "," or \s) which the given-back digit cannot satisfy. Each X+ class
run is maximal munch: the class never overlaps with what follows it, and a
given-back class character cannot satisfy the follower either. An optional
dot (\.?) followed by \s+ is compiled as: consume "." when present, then
require whitespace (if "." is present but not followed by \s+, the empty
alternative fails as well, since "." is not whitespace). -/

/-- Greedy \d{lo,hi} (maximal munch, at least lo, at most hi digits). -/
def mDigits (lo hi : Nat) (l : List Char) : Option (List Char × List Char) :=
  let ds := (l.takeWhile isDigitChar).take hi
  if lo ≤ ds.length then some (ds, l.drop ds.length) else none

/-- Greedy \s+. -/
def mWsPlus (l : List Char) : Option (List Char × List Char) :=
  let w := l.takeWhile isWsChar
  if w.isEmpty then none else some (w, l.dropWhile isWsChar)

/-- Greedy X+ over a character class. -/
def mClassPlus (p : Char → Bool) (l : List Char) : Option (List Char × List Char) :=
  let t := l.takeWhile p
  if t.isEmpty then none else some (t, l.dropWhile p)

/-- Candidate pattern 1: \d{1,2}\.\s*[A-Za-zÄÖÜäöü]+\.?\s+\d{4}.
Returns the matched substring (match.group(0)). -/
def matchP1 (l : List Char) : Option (List Char) :=
  match mDigits 1 2 l with
  | none => none
  | some (d, r) =>
    match r with
    | '.' :: r1 =>
      let w1 := r1.takeWhile isWsChar
      let r2 := r1.dropWhile isWsChar
      match mClassPlus letterClass r2 with
      | none => none
      | some (ls, r3) =>
        let dr := match r3 with
          | '.' :: rr => (['.'], rr)
          | _ => (([] : List Char), r3)
        match mWsPlus dr.2 with
        | none => none
        | some (w2, r5) =>
          match mDigits 4 4 r5 with
          | none => none
          | some (y, _) => some (d ++ '.' :: (w1 ++ ls ++ dr.1 ++ w2 ++ y))
    | _ => none

/-- Candidate pattern 2: \d{1,2}\s+[A-Za-zÄÖÜäöü]+\.?\s+\d{4}. -/
def matchP2 (l : List Char) : Option (List Char) :=
  match mDigits 1 2 l with
  | none => none
  | some (d, r) =>
    match mWsPlus r with
    | none => none
    | some (w1, r2) =>
      match mClassPlus letterClass r2 with
      | none => none
      | some (ls, r3) =>
        let dr := match r3 with
          | '.' :: rr => (['.'], rr)
          | _ => (([] : List Char), r3)
        match mWsPlus dr.2 with
        | none => none
        | some (w2, r5) =>
          match mDigits 4 4 r5 with
          | none => none
          | some (y, _) => some (d ++ w1 ++ ls ++ dr.1 ++ w2 ++ y)

/-- Candidate pattern 3: \d{1,2}\.\d{1,2}\.\d{4}. -/
def matchP3 (l : List Char) : Option (List Char) :=
  match mDigits 1 2 l with
  | none => none
  | some (d1, r) =>
    match r with
    | '.' :: r1 =>
      match mDigits 1 2 r1 with
      | none => none
      | some (d2, r2) =>
        match r2 with
        | '.' :: r3 =>
          match mDigits 4 4 r3 with
          | none => none
          | some (y, _) => some (d1 ++ '.' :: (d2 ++ '.' :: y))
        | _ => none
    | _ => none

/-- Candidate pattern 4: \d{4}-\d{2}-\d{2}. -/
def matchP4 (l : List Char) : Option (List Char) :=
  match mDigits 4 4 l with
  | none => none
  | some (y, r) =>
    match r with
    | '-' :: r1 =>
      match mDigits 2 2 r1 with
      | none => none
      | some (m2, r2) =>
        match r2 with
        | '-' :: r3 =>
          match mDigits 2 2 r3 with
          | none => none
          | some (d2, _) => some (y ++ '-' :: (m2 ++ '-' :: d2))
        | _ => none
    | _ => none

/-- re.search: try the matcher at every position, leftmost match wins. -/
def searchM (m : List Char → Option (List Char)) : List Char → Option (List Char)
  | [] => m []
  | c :: cs =>
    match m (c :: cs) with
    | some g => some g
    | none => searchM m cs

/-- _extract_date_candidate: first pattern with a match anywhere wins; with no
match at all the input is returned unchanged. -/
def extractCandidate (l : List Char) : List Char :=
  match searchM matchP1 l with
  | some g => g
  | none =>
    match searchM matchP2 l with
    | some g => g
    | none =>
      match searchM matchP3 l with
      | some g => g
      | none =>
        match searchM matchP4 l with
        | some g => g
        | none => l

/-- re.match(r"^\d{4}-\d{2}-\d{2}T", l) viewed as a Bool. -/
def isoTHead (l : List Char) : Bool :=
  match mDigits 4 4 l with
  | some (_, '-' :: r1) =>
    match mDigits 2 2 r1 with
    | some (_, '-' :: r2) =>
      match mDigits 2 2 r2 with
      | some (_, 'T' :: _) => true
      | _ => false
    | _ => false
  | _ => false

def digitsToNat (l : List Char) : Nat :=
  l.foldl (fun a c => a * 10 + (c.toNat - 48)) 0

/-- Branch regex ^(\d{1,2})\s+([A-Za-zÄÖÜäöü.]+)\s+(\d{4})$ ("04 Nov 2025"):
day, month token, year. -/
def mB1 (l : List Char) : Option (Nat × List Char × Nat) :=
  match mDigits 1 2 l with
  | none => none
  | some (d, r) =>
    match mWsPlus r with
    | none => none
    | some (_, r1) =>
      match mClassPlus letterDotClass r1 with
      | none => none
      | some (g2, r2) =>
        match mWsPlus r2 with
        | none => none
        | some (_, r3) =>
          match mDigits 4 4 r3 with
          | some (y, []) => some (digitsToNat d, g2, digitsToNat y)
          | _ => none

/-- Branch regex ^([A-Za-zÄÖÜäöü.]+)\s+(\d{1,2}),\s*(\d{4})$ ("Nov 18, 2025"):
month token, day, year. -/
def mB2 (l : List Char) : Option (List Char × Nat × Nat) :=
  match mClassPlus letterDotClass l with
  | none => none
  | some (g1, r) =>
    match mWsPlus r with
    | none => none
    | some (_, r1) =>
      match mDigits 1 2 r1 with
      | none => none
      | some (d, r2) =>
        match r2 with
        | ',' :: r3 =>
          match mDigits 4 4 (r3.dropWhile isWsChar) with
          | some (y, []) => some (g1, digitsToNat d, digitsToNat y)
          | _ => none
        | _ => none

/-- Branch regex ^(\d{1,2})\.\s*([A-Za-zÄÖÜäöü.]+)\s+(\d{4})$
("27. November 2025"): day, month token, year. -/
def mB3 (l : List Char) : Option (Nat × List Char × Nat) :=
  match mDigits 1 2 l with
  | none => none
  | some (d, r) =>
    match r with
    | '.' :: r1 =>
      match mClassPlus letterDotClass (r1.dropWhile isWsChar) with
      | none => none
      | some (g2, r2) =>
        match mWsPlus r2 with
        | none => none
        | some (_, r3) =>
          match mDigits 4 4 r3 with
          | some (y, []) => some (digitsToNat d, g2, digitsToNat y)
          | _ => none
    | _ => none

/-- Branch regex ^(\d{1,2})\.(\d{1,2})\.(\d{4})$ ("27.11.2025"):
day, month, year. -/
def mB4 (l : List Char) : Option (Nat × Nat × Nat) :=
  match mDigits 1 2 l with
  | none => none
  | some (d1, r) =>
    match r with
    | '.' :: r1 =>
      match mDigits 1 2 r1 with
      | none => none
      | some (d2, r2) =>
        match r2 with
        | '.' :: r3 =>
          match mDigits 4 4 r3 with
          | some (y, []) => some (digitsToNat d1, digitsToNat d2, digitsToNat y)
          | _ => none
        | _ => none
    | _ => none

/-- MONTH_MAP of the source, in source order. -/
def MONTH_MAP : List (String × Nat) :=
  [("jan", 1), ("january", 1), ("feb", 2), ("february", 2), ("mar", 3),
   ("mär", 3), ("maer", 3), ("maerz", 3), ("märz", 3), ("march", 3),
   ("apr", 4), ("april", 4), ("may", 5), ("mai", 5), ("jun", 6),
   ("june", 6), ("jul", 7), ("july", 7), ("aug", 8), ("august", 8),
   ("sep", 9), ("sept", 9), ("september", 9), ("oct", 10), ("okt", 10),
   ("october", 10), ("nov", 11), ("november", 11), ("dec", 12), ("dez", 12),
   ("december", 12)]

/-- MONTH_MAP.get(name). All values are nonzero, so Python's falsiness test
coincides with the none test. -/
def monthGet (name : String) : Option Nat :=
  (MONTH_MAP.find? (fun p => p.1 == name)).map (fun p => p.2)

/-- Python str.strip("."). -/
def stripDotsEnds (l : List Char) : List Char := stripCharsL (fun c => c = '.') l

def isLeapYear (y : Nat) : Bool := (y % 4 = 0 && y % 100 ≠ 0) || y % 400 = 0

def daysInMonth (y m : Nat) : Nat :=
  if m = 2 then (if isLeapYear y then 29 else 28)
  else if m = 4 || m = 6 || m = 9 || m = 11 then 30
  else 31

def pad2 (n : Nat) : String := if n < 10 then "0" ++ toString n else toString n

def pad4 (n : Nat) : String :=
  if n < 10 then "000" ++ toString n
  else if n < 100 then "00" ++ toString n
  else if n < 1000 then "0" ++ toString n
  else toString n

/-- datetime(year, month, day).date(), represented by its ISO string; the
validation mirrors CPython (year, then month, then day), and the errors are
the ValueError messages datetime raises. -/
def mkDateIso (y m d : Nat) : Except String String :=
  if y < 1 || 9999 < y then .error ("year " ++ toString y ++ " is out of range")
  else if m < 1 || 12 < m then .error "month must be in 1..12"
  else if d < 1 || daysInMonth y m < d then .error "day is out of range for month"
  else .ok (pad4 y ++ "-" ++ pad2 m ++ "-" ++ pad2 d)

def firstSome {α β : Type} (f : α → Option β) : List α → Option β
  | [] => none
  | a :: as =>
    match f a with
    | some b => some b
    | none => firstSome f as

/-- CPython strptime directive %m, as its ordered regex alternation
1[0-2] | 0[1-9] | [1-9]; each alternative is offered for backtracking. -/
def altsPyMonth (l : List Char) : List (Nat × List Char) :=
  (match l with
   | '1' :: c :: r => if '0' ≤ c && c ≤ '2' then [(10 + (c.toNat - 48), r)] else []
   | _ => []) ++
  (match l with
   | '0' :: c :: r => if '1' ≤ c && c ≤ '9' then [(c.toNat - 48, r)] else []
   | _ => []) ++
  (match l with
   | c :: r => if '1' ≤ c && c ≤ '9' then [(c.toNat - 48, r)] else []
   | _ => [])

/-- CPython strptime directive %d, as its ordered regex alternation
3[01] | [12]\d | 0[1-9] | [1-9]. -/
def altsPyDay (l : List Char) : List (Nat × List Char) :=
  (match l with
   | '3' :: c :: r => if c = '0' || c = '1' then [(30 + (c.toNat - 48), r)] else []
   | _ => []) ++
  (match l with
   | c1 :: c2 :: r =>
     if (c1 = '1' || c1 = '2') && isDigitChar c2 then
       [((c1.toNat - 48) * 10 + (c2.toNat - 48), r)]
     else []
   | _ => []) ++
  (match l with
   | '0' :: c :: r => if '1' ≤ c && c ≤ '9' then [(c.toNat - 48, r)] else []
   | _ => []) ++
  (match l with
   | c :: r => if '1' ≤ c && c ≤ '9' then [(c.toNat - 48, r)] else []
   | _ => [])

/-- datetime.strptime(s, "%Y-%m-%d") without the calendar validation
(which mkDateIso performs): %Y is exactly four digits in CPython. -/
def strptimeISO (l : List Char) : Option (Nat × Nat × Nat) :=
  match mDigits 4 4 l with
  | some (y, '-' :: r1) =>
    firstSome
      (fun mr =>
        match mr with
        | (m, '-' :: r3) =>
          firstSome
            (fun dr =>
              match dr with
              | (d, []) => some (digitsToNat y, m, d)
              | _ => none)
            (altsPyDay r3)
        | _ => none)
      (altsPyMonth r1)
  | _ => none

/-- datetime.strptime(s, "%d.%m.%Y") without the calendar validation. -/
def strptimeGerman (l : List Char) : Option (Nat × Nat × Nat) :=
  firstSome
    (fun dr =>
      match dr with
      | (d, '.' :: r1) =>
        firstSome
          (fun mr =>
            match mr with
            | (m, '.' :: r2) =>
              match mDigits 4 4 r2 with
              | some (y, []) => some (digitsToNat y, m, d)
              | _ => none
            | _ => none)
          (altsPyMonth r1)
      | _ => none)
    (altsPyDay l)

def unknownMonthMsg (name orig : String) : String :=
  "Unknown month: " ++ name ++ " in " ++ orig

def unrecognizedMsg (orig : String) : String :=
  "Unrecognized date format: " ++ orig

/-- The two strict strptime fallbacks of parse_date lines 236-240: a
ValueError from either format (including calendar validation) moves on to
the next; after both fail the final "Unrecognized date format" is raised. -/
def tryStrictFormats (s : List Char) (orig : String) : Except String String :=
  let german :=
    match strptimeGerman s with
    | some (y, mo, d) =>
      match mkDateIso y mo d with
      | .ok out => .ok out
      | .error _ => .error (unrecognizedMsg orig)
    | none => .error (unrecognizedMsg orig)
  match strptimeISO s with
  | some (y, mo, d) =>
    match mkDateIso y mo d with
    | .ok out => .ok out
    | .error _ => german
  | none => german

/-- parse_date lines 188-242: candidate extraction, ISO-time truncation, the
four anchored branches in order, then the strict fallbacks. orig is the
original argument (used verbatim in error messages). -/
def parseCore (l : List Char) (orig : String) : Except String String :=
  let s0 := extractCandidate l
  let s := if isoTHead s0 then s0.take 10 else s0
  match mB1 s with
  | some (day, g2, year) =>
    let name := String.mk (lcList (stripDotsEnds g2))
    match monthGet name with
    | some mo => mkDateIso year mo day
    | none => .error (unknownMonthMsg name orig)
  | none =>
    match mB2 s with
    | some (g1, day, year) =>
      let name := String.mk (lcList (stripDotsEnds g1))
      match monthGet name with
      | some mo => mkDateIso year mo day
      | none => .error (unknownMonthMsg name orig)
    | none =>
      match mB3 s with
      | some (day, g2, year) =>
        let name := String.mk (lcList (stripDotsEnds g2))
        match monthGet name with
        | some mo => mkDateIso year mo day
        | none => .error (unknownMonthMsg name orig)
      | none =>
        match mB4 s with
        | some (day, mo, year) => mkDateIso year mo day
        | none => tryStrictFormats s orig

/-- The preprocessing pipeline of parse_date up to and including the weekday
strip (lines 177-180), before the comma step. -/
def preprocess (dateStr : String) : List Char :=
  pstrip (weekdaySub (pstrip (removeUhr (dateStr.data.map normChar))))

/-- parse_date of the source (lines 175-242). A successful Python return of a
date object is represented by the date's ISO string; a raised ValueError by
an error carrying its message. -/
def parse_date (dateStr : String) : Except String String :=
  parseCore (commaStep (preprocess dateStr)) dateStr

/-! HTML documents, as parsed by BeautifulSoup, are embedded as a tree of
tags (with attributes) and navigable strings. -/

inductive Node where
  | text : String → Node
  | tag : String → List (String × String) → List Node → Node
deriving Repr

mutual
/-- All NavigableStrings below a node, in document order. -/
def nodeStrings : Node → List String
  | .text s => [s]
  | .tag _ _ cs => listStrings cs

def listStrings : List Node → List String
  | [] => []
  | n :: ns => nodeStrings n ++ listStrings ns
end

def isTagNamed (name : String) : Node → Bool
  | .tag n _ _ => n == name
  | .text _ => false

def attrOf (n : Node) (k : String) : Option String :=
  match n with
  | .tag _ as _ => (as.find? (fun p => p.1 == k)).map (fun p => p.2)
  | .text _ => none

def lcStr (s : String) : String := String.mk (lcList s.data)

/-- The whitespace-separated words of a character list (the multi-valued
class attribute splitting); cur accumulates the current word reversed. -/
def wordsGo (cur : List Char) : List Char → List (List Char)
  | [] => if cur.isEmpty then [] else [cur.reverse]
  | c :: cs =>
    if isWsChar c then
      if cur.isEmpty then wordsGo [] cs else cur.reverse :: wordsGo [] cs
    else wordsGo (c :: cur) cs

/-- Is the class attribute, split on whitespace, carrying this token?
(BeautifulSoup class_ matching and CSS .token selectors.) -/
def hasClass (n : Node) (tok : String) : Bool :=
  match attrOf n "class" with
  | none => false
  | some cls => (wordsGo [] cls.data).contains tok.data

mutual
/-- All descendant-or-self tags satisfying p, in document order (pre-order). -/
def collectTags (p : Node → Bool) : Node → List Node
  | .text _ => []
  | .tag n a cs =>
    (if p (.tag n a cs) then [Node.tag n a cs] else []) ++ collectTagsL p cs

def collectTagsL (p : Node → Bool) : List Node → List Node
  | [] => []
  | n :: ns => collectTags p n ++ collectTagsL p ns
end

/-- Tag.find_all(p): matching descendants (not self), in document order. -/
def findAll (p : Node → Bool) : Node → List Node
  | .text _ => []
  | .tag _ _ cs => collectTagsL p cs

def pstripS (s : String) : String := String.mk (pstrip s.data)

/-- Tag.get_text(sep, strip=True): every descendant string stripped, the
empty ones dropped, the rest joined with sep. -/
def getTextSep (sep : String) (n : Node) : String :=
  String.intercalate sep (((nodeStrings n).map pstripS).filter (fun s => s ≠ ""))

/-- Tag.stripped_strings. -/
def strippedStrings (n : Node) : List String :=
  ((nodeStrings n).map pstripS).filter (fun s => s ≠ "")

mutual
/-- Remove every descendant tag satisfying p (Tag.extract on each). -/
def removeTagsN (p : Node → Bool) : Node → Node
  | .text s => .text s
  | .tag n a cs => .tag n a (removeTagsL p cs)

def removeTagsL (p : Node → Bool) : List Node → List Node
  | [] => []
  | .text s :: ns => .text s :: removeTagsL p ns
  | .tag nm a cs :: ns =>
    if p (.tag nm a cs) then removeTagsL p ns
    else removeTagsN p (.tag nm a cs) :: removeTagsL p ns
end

def childrenOf : Node → List Node
  | .text _ => []
  | .tag _ _ cs => cs

def renderAttrs (a : List (String × String)) : String :=
  a.foldl (fun acc p => acc ++ " " ++ p.1 ++ "=\x22" ++ p.2 ++ "\x22") ""

mutual
/-- Tag.decode_contents(): the inner markup re-rendered as a string. -/
def renderNode : Node → String
  | .text s => s
  | .tag n a cs => "<" ++ n ++ renderAttrs a ++ ">" ++ renderList cs ++ "</" ++ n ++ ">"

def renderList : List Node → String
  | [] => ""
  | n :: ns => renderNode n ++ renderList ns
end

/-! URL resolution (resolve_url of the source and urllib's urljoin, the
latter modelled for the URL shapes this program produces: absolute URLs,
scheme-relative, root-relative, and plain relative paths). -/

def startsList : List Char → List Char → Bool
  | [], _ => true
  | _ :: _, [] => false
  | p :: ps, c :: cs => p = c && startsList ps cs

def strStarts (pre s : String) : Bool := startsList pre.data s.data

def hasSubList (pat : List Char) : List Char → Bool
  | [] => pat.isEmpty
  | c :: cs => startsList pat (c :: cs) || hasSubList pat cs

def containsSub (s pat : String) : Bool := hasSubList pat.data s.data

/-- Split "scheme://rest" if the URL has an explicit network scheme. -/
def splitScheme (u : String) : Option (String × String) :=
  let sch := u.data.takeWhile (fun c => c ≠ ':')
  let rest := u.data.dropWhile (fun c => c ≠ ':')
  match rest with
  | ':' :: '/' :: '/' :: r => some (String.mk sch, String.mk r)
  | _ => none

/-- urlparse(page_url) reduced to its scheme://netloc origin. -/
def originOf (pageUrl : String) : String :=
  match splitScheme pageUrl with
  | some (sch, rest) => sch ++ "://" ++ String.mk (rest.data.takeWhile (fun c => c ≠ '/'))
  | none => "://"

/-- Does the string start with a "scheme:" part (letters then a colon,
before any slash)? -/
def hasSchemeCol (u : String) : Bool :=
  let pre := u.data.takeWhile (fun c => c ≠ ':' && c ≠ '/')
  !pre.isEmpty && pre.all isAsciiAlpha &&
    (match u.data.dropWhile (fun c => c ≠ ':' && c ≠ '/') with
     | ':' :: _ => true
     | _ => false)

/-- Base URL truncated to its last path slash (after the origin). -/
def baseDir (base : String) : String :=
  match splitScheme base with
  | some (sch, rest) =>
    let netloc := rest.data.takeWhile (fun c => c ≠ '/')
    let path := rest.data.drop netloc.length
    let keep := (path.reverse.dropWhile (fun c => c ≠ '/')).reverse
    sch ++ "://" ++ String.mk netloc ++ (if keep.isEmpty then "/" else String.mk keep)
  | none => base

def urljoinM (base href : String) : String :=
  if href = "" then base
  else if hasSchemeCol href then href
  else if strStarts "//" href then
    (match splitScheme base with
     | some (sch, _) => sch ++ ":" ++ href
     | none => href)
  else if strStarts "/" href then originOf base ++ href
  else baseDir base ++ href

/-- resolve_url of the source (lines 138-157). -/
def resolve_url (pageUrl href : String) : String :=
  if href = "" then pageUrl
  else
    let h := pstripS href
    if h = "" then pageUrl
    else if strStarts "http://" (lcStr h) || strStarts "https://" (lcStr h) ||
            strStarts "mailto:" (lcStr h) || strStarts "javascript:" (lcStr h) then h
    else if strStarts "/" h then originOf pageUrl ++ h
    else if strStarts "abteilungen/" h then originOf pageUrl ++ "/" ++ h
    else urljoinM pageUrl h

/-! The record type: Python dicts with string keys and values become ordered
association lists (dict literals have unique keys, so first-match lookup is
dict lookup). -/

abbrev EventRec := List (String × String)

def lookupS (r : EventRec) (k : String) : Option String :=
  (r.find? (fun p => p.1 == k)).map (fun p => p.2)

/-- ev[k] for records that carry the key; total with default "" (every record
the program builds carries the keys the program reads). -/
def getS (r : EventRec) (k : String) : String := (lookupS r k).getD ""

/-- dict.get(k, dflt). -/
def getOr (r : EventRec) (k dflt : String) : String :=
  match lookupS r k with
  | some v => v
  | none => dflt

/-- dict.get(k) or fallback (Python falsiness: empty string also falls back). -/
def getOrFalsy (r : EventRec) (k fallback : String) : String :=
  let v := getS r k
  if v ≠ "" then v else fallback

/-! The Detail-Page Extractor (scrape_wiwi_details, lines 270-344). Network
fetching is an oracle fetchd : url → Option document (none = requests
exception). The DETAIL_CACHE memoisation only avoids repeated fetches of the
same pure result and is dropped from the embedding. -/

def cleanLabelValue (text label : String) : String :=
  if text = "" then ""
  else
    let t := pstrip (text.data.map (fun c => if c = Char.ofNat 0xa0 then ' ' else c))
    let t2 :=
      if label ≠ "" && startsList (lcList label.data) (lcList t) then
        (t.drop label.length).dropWhile isWsChar
      else t
    String.mk (pstrip t2)

/-- The time regex \d{1,2}:\d{2}; maximal munch on \d{1,2} is faithful since
the follow-up ":" cannot be a digit. -/
def matchTime (l : List Char) : Option (List Char) :=
  match mDigits 1 2 l with
  | none => none
  | some (h, ':' :: r1) =>
    match mDigits 2 2 r1 with
    | none => none
    | some (mi, _) => some (h ++ ':' :: mi)
  | some _ => none

def extractTimeFragment (text : String) : String :=
  if text = "" then ""
  else
    let t := text.data.map (fun c => if c = Char.ofNat 0xa0 then ' ' else c)
    match searchM matchTime t with
    | some g => String.mk g
    | none =>
      String.mk (stripCharsL
        (fun c => c = ' ' || c = ',' || c = Char.ofNat 0x2013 || c = '-') t)

def selectClass (container : Node) (cls : String) : Option Node :=
  (findAll (fun n => hasClass n cls) container).head?

/-- The h1.title field of the detail container (inserted only nonempty). -/
def detailTitlePart (container : Node) : EventRec :=
  match (findAll (fun n => isTagNamed "h1" n && hasClass n "title") container).head? with
  | some t =>
    if getTextSep " " t ≠ "" then [("title", getTextSep " " t)] else []
  | none => []

/-- The .startdate field: raw text (label-stripped) plus, when the date
candidate parses, the canonical date; a parse error leaves only raw_date. -/
def detailDatePart (container : Node) : EventRec :=
  match selectClass container "startdate" with
  | none => []
  | some sd =>
    if cleanLabelValue (getTextSep " " sd) "When:" ≠ "" then
      [("raw_date", cleanLabelValue (getTextSep " " sd) "When:")] ++
        (match parse_date (String.mk (extractCandidate
            (cleanLabelValue (getTextSep " " sd) "When:").data)) with
         | .ok d => [("date", d)]
         | .error _ => [])
    else []

def detailStart (container : Node) : String :=
  match selectClass container "starttime" with
  | some n => extractTimeFragment (getTextSep " " n)
  | none => ""

def detailEnd (container : Node) : String :=
  match selectClass container "endtime" with
  | some n => extractTimeFragment (getTextSep " " n)
  | none => ""

/-- start_time, end_time, and time_info (a range joined by an en-dash when
both ends are present, the start alone otherwise). -/
def detailTimePart (container : Node) : EventRec :=
  (if detailStart container ≠ "" then [("start_time", detailStart container)] else []) ++
  (if detailEnd container ≠ "" then [("end_time", detailEnd container)] else []) ++
  (if detailStart container ≠ "" && detailEnd container ≠ "" then
    [("time_info", detailStart container ++ "–" ++ detailEnd container)]
   else if detailStart container ≠ "" then [("time_info", detailStart container)]
   else [])

def detailLocPart (container : Node) : EventRec :=
  match selectClass container "location" with
  | none => []
  | some ld =>
    if cleanLabelValue (getTextSep " " ld) "Where:" ≠ "" then
      [("location", cleanLabelValue (getTextSep " " ld) "Where:")]
    else []

def detailOrgPart (url : String) (container : Node) : EventRec :=
  match selectClass container "organizer" with
  | none => []
  | some og =>
    (if cleanLabelValue (getTextSep " " og) "Speaker:" ≠ "" then
      [("speaker", cleanLabelValue (getTextSep " " og) "Speaker:")]
     else []) ++
    (match (findAll (fun n => isTagNamed "a" n && (attrOf n "href").isSome) og).head? with
     | some a => [("speaker_url", resolve_url url ((attrOf a "href").getD ""))]
     | none => [])

def detailDescPart (container : Node) : EventRec :=
  match selectClass container "description" with
  | none => []
  | some dd =>
    (if getTextSep "\n" dd ≠ "" then [("description", getTextSep "\n" dd)] else []) ++
    (if pstripS (renderList (childrenOf dd)) ≠ "" then
      [("description_html", pstripS (renderList (childrenOf dd)))]
     else [])

def scrape_wiwi_details (fetchd : String → Option Node) (url : String) : EventRec :=
  if url = "" then []
  else
    match fetchd url with
    | none => []
    | some soup =>
      match (findAll (fun n => attrOf n "id" == some "calendar-event") soup).head? with
      | none => []
      | some container =>
        detailTitlePart container ++ (detailDatePart container ++
          (detailTimePart container ++ (detailLocPart container ++
          (detailOrgPart url container ++ detailDescPart container))))

/-! The Tabular Extractor (scrape_wiwi_table, lines 347-432). The already
fetched table page is passed in as soup; detail pages go through the fetchd
oracle. -/

structure SeminarCfg where
  id : String
  name : String
  page : String
  location : String
  time_info : String
deriving Repr, DecidableEq

/-- SEMINARS of the source (lines 13-63). -/
def SEMINARS : List SeminarCfg :=
  [⟨"finance_seminar", "Finance Seminar Series",
    "https://www.old.wiwi.uni-frankfurt.de/abteilungen/finance/seminar/finance-seminar-series/seminar-calendar.html",
    "HoF E.01 / Deutsche Bank room", "Tuesdays 12:00–13:15"⟩,
   ⟨"finance_brownbag", "Finance Brown Bag",
    "https://www.old.wiwi.uni-frankfurt.de/abteilungen/finance/seminar/brown-bag/finance-brown-bag.html",
    "HoF E.20 / DZ Bank room", "Wednesdays 14:00–15:00"⟩,
   ⟨"mm_amos", "AMOS Seminar (Management & Microeconomics)",
    "https://www.old.wiwi.uni-frankfurt.de/abteilungen/mm/forschung/forschungskolloquien/amos.html",
    "RuW 4.201", "Usually Wednesdays 14:15"⟩,
   ⟨"mm_brownbag", "Management & Microeconomics Brown Bag",
    "https://www.old.wiwi.uni-frankfurt.de/abteilungen/mm/forschung/forschungskolloquien/brown-bag-seminar.html",
    "RuW 4.201", "Thursdays 12:30–13:30"⟩,
   ⟨"qep", "Quantitative Economic Policy Seminar",
    "https://www.old.wiwi.uni-frankfurt.de/abteilungen/eq/seminars/quantitative-economic-policy-seminar.html",
    "RuW 4.202", ""⟩,
   ⟨"macro_seminar", "Macro Seminar",
    "https://www.old.wiwi.uni-frankfurt.de/abteilungen/money-and-macroeconomics/macro-seminar.html",
    "HoF E.01 / Deutsche Bank room", "Tuesdays 14:15–15:30"⟩,
   ⟨"macro_brownbag", "Money & Macro Brown Bag",
    "https://www.old.wiwi.uni-frankfurt.de/abteilungen/money-and-macroeconomics/brown-bag-seminar.html",
    "", ""⟩]

/-- tr.find("td", class_="dtstart-container") or tds[0]. -/
def rowDateTd (tr : Node) : Option Node :=
  match (findAll (fun n => isTagNamed "td" n && hasClass n "dtstart-container") tr).head? with
  | some td => some td
  | none => (findAll (isTagNamed "td") tr).head?

/-- date_td.get_text(strip=True); empty when the row has no cells at all
(the row is then skipped before this text is ever read). -/
def rowDateText (tr : Node) : String :=
  match rowDateTd tr with
  | some td => getTextSep "" td
  | none => ""

/-- tr.find("td", class_="speaker") or (tds[1] if len(tds) > 1 else None). -/
def rowSpeakerTd (tr : Node) : Option Node :=
  match (findAll (fun n => isTagNamed "td" n && hasClass n "speaker") tr).head? with
  | some td => some td
  | none => (findAll (isTagNamed "td") tr).get? 1

def rowSpeaker (tr : Node) : String :=
  match rowSpeakerTd tr with
  | some td => getTextSep " " td
  | none => ""

def rowSpeakerUrl (pageUrl : String) (tr : Node) : String :=
  match rowSpeakerTd tr with
  | none => ""
  | some td =>
    match (findAll (fun n => isTagNamed "a" n && (attrOf n "href").isSome) td).head? with
    | some a => resolve_url pageUrl ((attrOf a "href").getD "")
    | none => ""

/-- tr.find("td", class_="summary") or (tds[2] if len(tds) > 2 else None). -/
def rowSummaryTd (tr : Node) : Option Node :=
  match (findAll (fun n => isTagNamed "td" n && hasClass n "summary") tr).head? with
  | some td => some td
  | none => (findAll (isTagNamed "td") tr).get? 2

/-- Link text when the summary cell holds a link, else the cell's own text. -/
def rowTitle (tr : Node) : String :=
  match rowSummaryTd tr with
  | none => ""
  | some td =>
    match (findAll (isTagNamed "a") td).head? with
    | some a => getTextSep " " a
    | none => getTextSep " " td

/-- The resolved href of the summary cell's link, when present and nonempty. -/
def rowDetailsUrl (pageUrl : String) (tr : Node) : String :=
  match rowSummaryTd tr with
  | none => ""
  | some td =>
    match (findAll (isTagNamed "a") td).head? with
    | some a =>
      match attrOf a "href" with
      | some href => if href ≠ "" then resolve_url pageUrl href else ""
      | none => ""
    | none => ""

/-- The record literal of lines 411-430, with the detail-page overrides. -/
def buildRowRec (cfg : SeminarCfg) (detail : EventRec)
    (title speaker speaker_url dateIso date_text details_url : String) : EventRec :=
  [("seminar_id", cfg.id),
   ("seminar_name", cfg.name),
   ("seminar_page", cfg.page),
   ("title", getOr detail "title" title),
   ("speaker", getOr detail "speaker" speaker),
   ("speaker_url", getOr detail "speaker_url" speaker_url),
   ("date", getOr detail "date" dateIso),
   ("raw_date", getOr detail "raw_date" date_text),
   ("time_info", getOrFalsy detail "time_info" cfg.time_info),
   ("start_time", getOr detail "start_time" ""),
   ("end_time", getOr detail "end_time" ""),
   ("location", getOrFalsy detail "location" cfg.location),
   ("description", getOr detail "description" ""),
   ("description_html", getOr detail "description_html" ""),
   ("details_url", if details_url ≠ "" then details_url else cfg.page),
   ("source", "Goethe University Frankfurt")]

/-- One iteration of the row loop (lines 357-430): none = the loop continues
with no record for this row. -/
def processRow (cfg : SeminarCfg) (fetchd : String → Option Node) (tr : Node) :
    Option EventRec :=
  if (findAll (isTagNamed "td") tr).isEmpty then none
  else if rowDateText tr = "" then none
  else
    match parse_date (rowDateText tr) with
    | .error _ => none
    | .ok dateIso =>
      if rowTitle tr = "" then none
      else
        some (buildRowRec cfg
          (if rowDetailsUrl cfg.page tr ≠ "" then
            scrape_wiwi_details fetchd (rowDetailsUrl cfg.page tr)
          else [])
          (rowTitle tr) (rowSpeaker tr) (rowSpeakerUrl cfg.page tr) dateIso
          (rowDateText tr) (rowDetailsUrl cfg.page tr))

/-- table.select("tbody tr"): tr descendants of tbody descendants. -/
def tableRows (table : Node) : List Node :=
  ((findAll (isTagNamed "tbody") table).map (fun tb => findAll (isTagNamed "tr") tb)).flatten

def scrape_wiwi_table (cfg : SeminarCfg) (fetchd : String → Option Node)
    (soup : Node) : List EventRec :=
  match (findAll (fun n => isTagNamed "table" n && hasClass n "data-table-event") soup).head? with
  | none => []
  | some table => (tableRows table).filterMap (processRow cfg fetchd)

/-! The Narrative-Block Extractor (scrape_imfs, lines 435-564). -/

def IMFS_URL : String :=
  "https://www.imfs-frankfurt.de/veranstaltungen/alle-kommenden-veranstaltungen"

/-- re.sub(r"\s+", " ", l): every maximal whitespace run becomes one space
(the flag records whether the previous character was whitespace, i.e.
whether a run is already open). -/
def collapseWsGo : Bool → List Char → List Char
  | _, [] => []
  | prevWs, c :: cs =>
    if isWsChar c then
      if prevWs then collapseWsGo true cs else ' ' :: collapseWsGo true cs
    else c :: collapseWsGo false cs

def collapseWs (l : List Char) : List Char := collapseWsGo false l

def isSpaceComma (c : Char) : Bool := c = ' ' || c = ','

/-- The speaker_parts loop (lines 460-469): walk the first paragraph's direct
children, stopping at the first br or i tag; keep each child's nonempty text
stripped of spaces and commas. -/
def speakerParts : List Node → List String
  | [] => []
  | c :: cs =>
    match c with
    | .tag n a ns =>
      if lcStr n = "br" || lcStr n = "i" then []
      else
        let t := getTextSep " " (Node.tag n a ns)
        (if t ≠ "" then [String.mk (stripCharsL isSpaceComma t.data)] else []) ++
          speakerParts cs
    | .text s =>
      let t := pstripS s
      (if t ≠ "" then [String.mk (stripCharsL isSpaceComma t.data)] else []) ++
        speakerParts cs

/-- Line 471: join, collapse whitespace, strip spaces and commas. -/
def frameSpeaker (p1 : Node) : String :=
  let parts := speakerParts (childrenOf p1)
  if parts.isEmpty then ""
  else
    String.mk (stripCharsL isSpaceComma
      (collapseWs (String.intercalate " " parts).data))

def isQuoteChar (c : Char) : Bool := c = '"' || c = '“' || c = '”'

/-- The after-break collector of lines 478-491: texts of children after the
first br tag. -/
def afterBrTexts (seen : Bool) : List Node → List String
  | [] => []
  | c :: cs =>
    match c with
    | .tag n a ns =>
      if lcStr n = "br" then afterBrTexts true cs
      else if seen then
        (let t := getTextSep " " (Node.tag n a ns)
         (if t ≠ "" then [t] else []) ++ afterBrTexts seen cs)
      else afterBrTexts seen cs
    | .text s =>
      if seen then
        (let t := pstripS s
         (if t ≠ "" then [t] else []) ++ afterBrTexts seen cs)
      else afterBrTexts seen cs

/-- Lines 473-493: the italic span's text if present, else the first text
after a line break; quotes stripped. -/
def frameTitle (p1 : Node) : String :=
  match (findAll (isTagNamed "i") p1).head? with
  | some it => String.mk (stripCharsL isQuoteChar (getTextSep " " it).data)
  | none =>
    match afterBrTexts false (childrenOf p1) with
    | [] => ""
    | t :: _ => String.mk (stripCharsL isQuoteChar t.data)

def removeStrongs (p : Node) : Node := removeTagsN (isTagNamed "strong") p

/-- Lines 495-527: raw date text, parsed ISO date, time text and location
from the (optional) second paragraph. -/
def secondParagraphData : Option Node → String × String × String × String
  | none => ("", "", "", "")
  | some p2 =>
    let strongs := findAll (isTagNamed "strong") p2
    let rdt :=
      match strongs with
      | [] => ("", "", "")
      | s0 :: rest =>
        let raw_date_text := getTextSep " " s0
        let cand := String.mk (extractCandidate raw_date_text.data)
        let dr :=
          match parse_date cand with
          | .ok d => (d, raw_date_text)
          | .error _ => ("", "")
        let ti :=
          match rest with
          | [] => ""
          | s1 :: _ => String.mk (pstrip (removeUhr (getTextSep " " s1).data))
        (dr.2, dr.1, ti)
    let p2x := removeStrongs p2
    let loc := String.intercalate ", " (strippedStrings (if strongs.isEmpty then p2 else p2x))
    (rdt.1, rdt.2.1, rdt.2.2, loc)

/-- Lines 529-534: the display series name derived from the heading. -/
def displayName (raw : String) : String :=
  if containsSub (lcStr raw) "working lunch" then "IMFS Working Lunch"
  else if containsSub (lcStr raw) "policy lecture" then "IMFS Policy Lecture"
  else raw

/-- Lines 541-546: first link in the frame; mail links keep the listing URL. -/
def frameDetailsUrl (frame : Node) : String :=
  match (findAll (fun n => isTagNamed "a" n && (attrOf n "href").isSome) frame).head? with
  | none => IMFS_URL
  | some a =>
    let href := (attrOf a "href").getD ""
    if strStarts "mailto:" (lcStr href) then IMFS_URL
    else urljoinM IMFS_URL href

/-- One iteration of the frame loop (lines 445-562): none = the loop
continues with no record for this block. -/
def processFrame (frame : Node) : Option EventRec :=
  match (findAll (isTagNamed "h2") frame).head? with
  | none => none
  | some heading =>
    if getTextSep " " heading = "" then none
    else
      match findAll (isTagNamed "p") frame with
      | [] => none
      | p1 :: ps =>
        if (secondParagraphData ps.head?).2.1 = "" then none
        else
          some [("seminar_id", "imfs"),
                ("seminar_name", displayName (getTextSep " " heading)),
                ("seminar_page", IMFS_URL),
                ("title",
                  if frameTitle p1 = "" then displayName (getTextSep " " heading)
                  else frameTitle p1),
                ("speaker", frameSpeaker p1),
                ("date", (secondParagraphData ps.head?).2.1),
                ("raw_date", (secondParagraphData ps.head?).1),
                ("time_info", (secondParagraphData ps.head?).2.2.1),
                ("location", (secondParagraphData ps.head?).2.2.2),
                ("details_url", frameDetailsUrl frame),
                ("source", "IMFS Frankfurt")]

def scrape_imfs (soup : Node) : List EventRec :=
  match (findAll (fun n => hasClass n "page-content") soup).head? with
  | none => []
  | some content =>
    (findAll (fun n => isTagNamed "div" n && hasClass n "frame-type-text") content).filterMap
      processFrame

/-! The Aggregator (main, lines 567-591). -/

def dedupKey (ev : EventRec) : String × String × String :=
  (getS ev "seminar_id", getS ev "title", getS ev "date")

/-- The dedup loop with its seen set (membership is all a set is used for,
so a list of keys stands in for it). -/
def dedupGo (seen : List (String × String × String)) :
    List EventRec → List EventRec
  | [] => []
  | e :: l =>
    if seen.contains (dedupKey e) then dedupGo seen l
    else e :: dedupGo (dedupKey e :: seen) l

def dedupe (l : List EventRec) : List EventRec := dedupGo [] l

/-- Stable insertion of a new element after every element whose date key is
not greater. list.sort(key=date) is Python's stable sort by that key;
a stable sort is extensionally unique, so this insertion sort IS that sort. -/
def insEv (e : EventRec) : List EventRec → List EventRec
  | [] => [e]
  | a :: l =>
    if getS a "date" ≤ getS e "date" then a :: insEv e l
    else e :: a :: l

def sortByDate (l : List EventRec) : List EventRec :=
  l.foldl (fun acc e => insEv e acc) []

/-- main's aggregation (lines 577-588): concatenate the per-source record
lists (tabular sources in config order, the narrative source last),
de-duplicate first-seen-wins, sort by the ISO date string. -/
def aggregate (tabular : List (List EventRec)) (narrative : List EventRec) :
    List EventRec :=
  sortByDate (dedupe (tabular.flatten ++ narrative))

/-- The whole successful run of main: every table page and the IMFS page
fetched via pages, detail pages via fetchd. -/
def mainEvents (pages : String → Node) (fetchd : String → Option Node) :
    List EventRec :=
  aggregate (SEMINARS.map (fun cfg => scrape_wiwi_table cfg fetchd (pages cfg.page)))
    (scrape_imfs (pages IMFS_URL))

/-! Accessors naming the intermediate values of scrape_imfs that the claims
talk about (same expressions processFrame computes). -/

def frameHeadingText (frame : Node) : String :=
  match (findAll (isTagNamed "h2") frame).head? with
  | some h => getTextSep " " h
  | none => ""

def frameFirstP (frame : Node) : Option Node :=
  (findAll (isTagNamed "p") frame).head?

/-- The title recovered from the block's first paragraph ("" when nothing is
recovered there). -/
def frameTitleText (frame : Node) : String :=
  match frameFirstP frame with
  | some p1 => frameTitle p1
  | none => ""

/-- The speaker recovered from the block's first paragraph ("" when the block
has no paragraph). -/
def frameSpeakerText (frame : Node) : String :=
  match frameFirstP frame with
  | some p1 => frameSpeaker p1
  | none => ""

/-! The input family of claim C1: each supported textual form, optionally
decorated with one weekday token (with a space or a comma separator) and
optionally with a trailing " Uhr". -/

def c1Forms : List (String × String) :=
  [("27.11.2025", "2025-11-27"),
   ("27. November 2025", "2025-11-27"),
   ("Nov 18, 2025", "2025-11-18"),
   ("04 Nov 2025", "2025-11-04"),
   ("2025-11-04", "2025-11-04"),
   ("2025-11-04T12:30", "2025-11-04")]

/-- The dotted English weekday abbreviations whose regex wildcard collides
with a shorter German token ("mo.", "fr.", "sa." eat their first three
letters), stranding a "." before the date text. -/
def c1BadToks : List String := ["mon.", "fri.", "sat."]

/-- Every decoration: no weekday, or one weekday token followed by a space
or by a comma and a space; flagged when the token is one of c1BadToks. -/
def c1Decorations : List (String × Bool) :=
  ("", false) ::
    (WEEKDAY_TOKENS.map (fun t =>
      [(t ++ " ", c1BadToks.contains t), (t ++ ", ", c1BadToks.contains t)])).flatten

/-- All decorated inputs with their expected canonical date and the flag
marking the combinations the implementation rejects. -/
def c1All : List ((String × String) × Bool) :=
  (c1Decorations.map (fun pb =>
    (c1Forms.map (fun fd =>
      ["", " Uhr"].map (fun u =>
        ((pb.1 ++ fd.1 ++ u, fd.2), pb.2 && (fd.1 == "Nov 18, 2025"))))).flatten)).flatten

def c1Good : List (String × String) := (c1All.filter (fun x => !x.2)).map (fun x => x.1)

def c1Bad : List String := (c1All.filter (fun x => x.2)).map (fun x => x.1.1)

/-- A date input of the form "27. Month 2025" with the month token symbolic. -/
def c1FormA (tok : List Char) : String := String.mk ("27. ".data ++ tok ++ " 2025".data)

/-- A date input of the form "Month 18, 2025" with the month token symbolic. -/
def c1FormB (tok : List Char) : String := String.mk (tok ++ " 18, 2025".data)

/-- A date input of the form "04 Month 2025" with the month token symbolic. -/
def c1FormC (tok : List Char) : String := String.mk ("04 ".data ++ tok ++ " 2025".data)

instance : DecidableEq (Except String String) := fun a b =>
  match a, b with
  | .ok x, .ok y =>
    if h : x = y then isTrue (by rw [h]) else isFalse (by simp [h])
  | .error x, .error y =>
    if h : x = y then isTrue (by rw [h]) else isFalse (by simp [h])
  | .ok _, .error _ => isFalse (by simp)
  | .error _, .ok _ => isFalse (by simp)

/-! Concrete HTML fixtures used to instantiate the claims. -/

/-- The exact field keys of the tabular record literal (lines 411-430). -/
def wiwiKeys : List String :=
  ["seminar_id", "seminar_name", "seminar_page", "title", "speaker",
   "speaker_url", "date", "raw_date", "time_info", "start_time", "end_time",
   "location", "description", "description_html", "details_url", "source"]

/-- The exact field keys of the narrative record literal (lines 548-562). -/
def imfsKeys : List String :=
  ["seminar_id", "seminar_name", "seminar_page", "title", "speaker", "date",
   "raw_date", "time_info", "location", "details_url", "source"]

def c10Cfg : SeminarCfg :=
  ⟨"qep", "Quantitative Economic Policy Seminar",
   "https://www.old.wiwi.uni-frankfurt.de/abteilungen/eq/seminars/quantitative-economic-policy-seminar.html",
   "RuW 4.202", ""⟩

/-- A fetched table page carrying no table.data-table-event element. -/
def c10Soup : Node := .tag "html" [] [.tag "div" [] [.text "Keine Ereignisse gefunden."]]

/-- A row whose date cell holds unparseable text. -/
def c7BadRow : Node :=
  .tag "tr" []
    [.tag "td" [] [.text "tba"], .tag "td" [] [.text "B"], .tag "td" [] [.text "T"]]

/-- A table row with date, speaker, and a linked title. -/
def wiwiRow : Node :=
  .tag "tr" []
    [.tag "td" [("class", "dtstart-container")] [.text "04.11.2025"],
     .tag "td" [] [.text "Dr. A"],
     .tag "td" [] [.tag "a" [("href", "detail.html")] [.text "Talk X"]]]

def wiwiSoup : Node :=
  .tag "html" []
    [.tag "table" [("class", "data-table-event")] [.tag "tbody" [] [wiwiRow]]]

/-- What scrape_wiwi_table produces for wiwiRow under c10Cfg with every
detail fetch failing. -/
def wiwiRowRec : EventRec :=
  [("seminar_id", "qep"),
   ("seminar_name", "Quantitative Economic Policy Seminar"),
   ("seminar_page", "https://www.old.wiwi.uni-frankfurt.de/abteilungen/eq/seminars/quantitative-economic-policy-seminar.html"),
   ("title", "Talk X"), ("speaker", "Dr. A"), ("speaker_url", ""),
   ("date", "2025-11-04"), ("raw_date", "04.11.2025"), ("time_info", ""),
   ("start_time", ""), ("end_time", ""), ("location", "RuW 4.202"),
   ("description", ""), ("description_html", ""),
   ("details_url", "https://www.old.wiwi.uni-frankfurt.de/abteilungen/eq/seminars/detail.html"),
   ("source", "Goethe University Frankfurt")]

/-- The narrative block of the C2 scenario exactly as the claim describes it:
a heading with a "with" connective, followed by one paragraph whose
emphasized spans are the date and the time and whose remaining text is the
room. -/
def c2ScenarioFrame : Node :=
  .tag "div" [("class", "frame-type-text")]
    [.tag "h2" [] [.text "IMFS Policy Lecture with Jane Doe"],
     .tag "p" []
       [.tag "strong" [] [.text "27. November 2025"],
        .tag "strong" [] [.text "14:00 Uhr"],
        .text "Room A"]]

/-- The same block with an (empty) first paragraph, so that the date
paragraph sits in the second-paragraph position the code reads. -/
def c2AmendedFrame : Node :=
  .tag "div" [("class", "frame-type-text")]
    [.tag "h2" [] [.text "IMFS Policy Lecture with Jane Doe"],
     .tag "p" [] [],
     .tag "p" []
       [.tag "strong" [] [.text "27. November 2025"],
        .tag "strong" [] [.text "14:00 Uhr"],
        .text "Room A"]]

/-- The record the implementation produces for c2AmendedFrame. -/
def c2AmendedRec : EventRec :=
  [("seminar_id", "imfs"), ("seminar_name", "IMFS Policy Lecture"),
   ("seminar_page", IMFS_URL), ("title", "IMFS Policy Lecture"),
   ("speaker", ""), ("date", "2025-11-27"), ("raw_date", "27. November 2025"),
   ("time_info", "14:00"), ("location", "Room A"), ("details_url", IMFS_URL),
   ("source", "IMFS Frankfurt")]

/-- An IMFS listing page holding the amended block. -/
def c3Soup : Node :=
  .tag "html" [] [.tag "div" [("class", "page-content")] [c2AmendedFrame]]

/-! Theorems. -/

/-- Claim C10: when the fetched document has no table.data-table-event
element, the Tabular Extractor returns the empty record list rather than
raising an error. -/
theorem claim_C10 (cfg : SeminarCfg) (fetchd : String → Option Node) (soup : Node)
    (h : (findAll (fun n => isTagNamed "table" n && hasClass n "data-table-event") soup).head? = none) :
    scrape_wiwi_table cfg fetchd soup = [] := by
  unfold scrape_wiwi_table
  rw [h]

theorem claim_C10_witness :
    (findAll (fun n => isTagNamed "table" n && hasClass n "data-table-event") c10Soup).head? = none ∧
    scrape_wiwi_table c10Cfg (fun _ => none) c10Soup = [] :=
  ⟨rfl, claim_C10 c10Cfg (fun _ => none) c10Soup rfl⟩

/-- Claim C7: a table row whose date cell text is empty or fails to parse
yields no record, and the row loop over the remaining rows is unaffected. -/
theorem claim_C7 (cfg : SeminarCfg) (fetchd : String → Option Node) (tr : Node)
    (h : rowDateText tr = "" ∨ ∃ e, parse_date (rowDateText tr) = Except.error e) :
    processRow cfg fetchd tr = none ∧
    ∀ pre post : List Node,
      (pre ++ tr :: post).filterMap (processRow cfg fetchd) =
        pre.filterMap (processRow cfg fetchd) ++ post.filterMap (processRow cfg fetchd) := by
  have hnone : processRow cfg fetchd tr = none := by
    unfold processRow
    split
    · rfl
    · split
      · rfl
      next hdt =>
        rcases h with h | ⟨e, he⟩
        · exact absurd h hdt
        · split
          · rfl
          next d heq => rw [he] at heq; cases heq
  refine ⟨hnone, fun pre post => ?_⟩
  simp [List.filterMap_append, List.filterMap_cons, hnone]

theorem claim_C7_witness :
    processRow c10Cfg (fun _ => none) c7BadRow = none ∧
    ([wiwiRow] ++ c7BadRow :: []).filterMap (processRow c10Cfg (fun _ => none)) =
      [wiwiRow].filterMap (processRow c10Cfg (fun _ => none)) ++
        ([] : List Node).filterMap (processRow c10Cfg (fun _ => none)) := by
  have h := claim_C7 c10Cfg (fun _ => none) c7BadRow
    (Or.inr ⟨"Unrecognized date format: tba", rfl⟩)
  exact ⟨h.1, h.2 [wiwiRow] []⟩

/-- Characterization of a successful row: with all guards passing, the loop
body emits the record literal with the detail enrichment of the row's link. -/
theorem procRow_eq_some (cfg : SeminarCfg) (fetchd : String → Option Node) (tr : Node)
    (htds : (findAll (isTagNamed "td") tr).isEmpty = false)
    (hdt : rowDateText tr ≠ "") (d : String)
    (hpd : parse_date (rowDateText tr) = Except.ok d)
    (ht : rowTitle tr ≠ "") :
    processRow cfg fetchd tr =
      some (buildRowRec cfg
        (if rowDetailsUrl cfg.page tr ≠ "" then
          scrape_wiwi_details fetchd (rowDetailsUrl cfg.page tr)
        else [])
        (rowTitle tr) (rowSpeaker tr) (rowSpeakerUrl cfg.page tr) d
        (rowDateText tr) (rowDetailsUrl cfg.page tr)) := by
  unfold processRow
  rw [htds]
  rw [if_neg (by decide), if_neg hdt, hpd]
  exact if_neg ht

/-- The record built with an empty detail mapping consists purely of
row-derived and config-fallback values. -/
theorem buildRowRec_empty (cfg : SeminarCfg) (t s su d dt u : String) (hne : u ≠ "") :
    buildRowRec cfg [] t s su d dt u =
      [("seminar_id", cfg.id), ("seminar_name", cfg.name),
       ("seminar_page", cfg.page), ("title", t), ("speaker", s),
       ("speaker_url", su), ("date", d), ("raw_date", dt),
       ("time_info", cfg.time_info), ("start_time", ""), ("end_time", ""),
       ("location", cfg.location), ("description", ""),
       ("description_html", ""), ("details_url", u),
       ("source", "Goethe University Frankfurt")] := by
  unfold buildRowRec
  rw [if_pos hne]
  rfl

/-- Claim C8: a failing or container-less detail page yields the empty
mapping, and a row pointing at it still yields the record built entirely
from row-derived and config-fallback values. -/
theorem claim_C8 (fetchd : String → Option Node) (url : String)
    (hfail : fetchd url = none ∨ ∃ soup, fetchd url = some soup ∧
      (findAll (fun n => attrOf n "id" == some "calendar-event") soup).head? = none) :
    scrape_wiwi_details fetchd url = [] ∧
    ∀ (cfg : SeminarCfg) (tr : Node) (d : String),
      rowDetailsUrl cfg.page tr = url → url ≠ "" →
      (findAll (isTagNamed "td") tr).isEmpty = false →
      rowDateText tr ≠ "" →
      parse_date (rowDateText tr) = Except.ok d →
      rowTitle tr ≠ "" →
      processRow cfg fetchd tr =
        some (buildRowRec cfg [] (rowTitle tr) (rowSpeaker tr)
          (rowSpeakerUrl cfg.page tr) d (rowDateText tr) url) ∧
      buildRowRec cfg [] (rowTitle tr) (rowSpeaker tr) (rowSpeakerUrl cfg.page tr)
          d (rowDateText tr) url =
        [("seminar_id", cfg.id), ("seminar_name", cfg.name),
         ("seminar_page", cfg.page), ("title", rowTitle tr),
         ("speaker", rowSpeaker tr), ("speaker_url", rowSpeakerUrl cfg.page tr),
         ("date", d), ("raw_date", rowDateText tr), ("time_info", cfg.time_info),
         ("start_time", ""), ("end_time", ""), ("location", cfg.location),
         ("description", ""), ("description_html", ""), ("details_url", url),
         ("source", "Goethe University Frankfurt")] := by
  have hdet : scrape_wiwi_details fetchd url = [] := by
    unfold scrape_wiwi_details
    by_cases hu : url = ""
    · simp [hu]
    · rcases hfail with hf | ⟨soup, hf, hc⟩
      · simp [hu, hf]
      · simp [hu, hf, hc]
  refine ⟨hdet, fun cfg tr d hurl hne htds hdt hpd ht => ?_⟩
  constructor
  · rw [procRow_eq_some cfg fetchd tr htds hdt d hpd ht, hurl, if_pos hne, hdet]
  · exact buildRowRec_empty cfg (rowTitle tr) (rowSpeaker tr)
      (rowSpeakerUrl cfg.page tr) d (rowDateText tr) url hne

/-- Inversion of a successful row: the emitted record is the literal built
from the row accessors, under the guards the loop checks. -/
theorem procRow_inv (cfg : SeminarCfg) (fetchd : String → Option Node) (tr : Node)
    (rec : EventRec) (h : processRow cfg fetchd tr = some rec) :
    rowTitle tr ≠ "" ∧ ∃ d, parse_date (rowDateText tr) = Except.ok d ∧
      rec = buildRowRec cfg
        (if rowDetailsUrl cfg.page tr ≠ "" then
          scrape_wiwi_details fetchd (rowDetailsUrl cfg.page tr)
        else [])
        (rowTitle tr) (rowSpeaker tr) (rowSpeakerUrl cfg.page tr) d
        (rowDateText tr) (rowDetailsUrl cfg.page tr) := by
  unfold processRow at h
  split at h
  · cases h
  · split at h
    · cases h
    · split at h
      · cases h
      next d heq =>
        split at h
        · cases h
        next ht => exact ⟨ht, d, heq, (Option.some.inj h).symm⟩

/-- Inversion of a successful narrative block: the emitted record is the
literal built from the block's heading and paragraphs, under the guards the
loop checks. -/
theorem processFrame_inv (frame : Node) (rec : EventRec)
    (h : processFrame frame = some rec) :
    ∃ heading p1 ps,
      (findAll (isTagNamed "h2") frame).head? = some heading ∧
      getTextSep " " heading ≠ "" ∧
      findAll (isTagNamed "p") frame = p1 :: ps ∧
      (secondParagraphData ps.head?).2.1 ≠ "" ∧
      rec = [("seminar_id", "imfs"),
             ("seminar_name", displayName (getTextSep " " heading)),
             ("seminar_page", IMFS_URL),
             ("title",
               if frameTitle p1 = "" then displayName (getTextSep " " heading)
               else frameTitle p1),
             ("speaker", frameSpeaker p1),
             ("date", (secondParagraphData ps.head?).2.1),
             ("raw_date", (secondParagraphData ps.head?).1),
             ("time_info", (secondParagraphData ps.head?).2.2.1),
             ("location", (secondParagraphData ps.head?).2.2.2),
             ("details_url", frameDetailsUrl frame),
             ("source", "IMFS Frankfurt")] := by
  unfold processFrame at h
  split at h
  · cases h
  next heading hh =>
    split at h
    · cases h
    next hne =>
      split at h
      · cases h
      next p1 ps hp =>
        split at h
        · cases h
        next hd => exact ⟨heading, p1, ps, hh, hne, hp, hd, (Option.some.inj h).symm⟩

theorem claim_C8_witness :
    scrape_wiwi_details (fun _ => none)
      "https://www.old.wiwi.uni-frankfurt.de/abteilungen/eq/seminars/detail.html" = [] ∧
    processRow c10Cfg (fun _ => none) wiwiRow =
      some (buildRowRec c10Cfg [] (rowTitle wiwiRow) (rowSpeaker wiwiRow)
        (rowSpeakerUrl c10Cfg.page wiwiRow) "2025-11-04" (rowDateText wiwiRow)
        "https://www.old.wiwi.uni-frankfurt.de/abteilungen/eq/seminars/detail.html") := by
  have h := claim_C8 (fun _ => none)
    "https://www.old.wiwi.uni-frankfurt.de/abteilungen/eq/seminars/detail.html"
    (Or.inl rfl)
  exact ⟨h.1, ((h.2 c10Cfg wiwiRow "2025-11-04" rfl (by decide) rfl (by decide) rfl
    (by decide)).1)⟩


/-- Claim C2 counterexample: the narrative block of the scenario — heading
"IMFS Policy Lecture with Jane Doe" followed by the date paragraph — yields
no record at all (the code reads the date only from a second paragraph and
never splits a heading at "with"/"mit"), contradicting the claimed record
with speaker "Jane Doe". -/
theorem claim_C2_counterexample :
    processFrame c2ScenarioFrame = none ∧
    scrape_imfs (Node.tag "html" []
      [Node.tag "div" [("class", "page-content")] [c2ScenarioFrame]]) = [] :=
  ⟨rfl, rfl⟩

/-- Claim C2 amended: the Narrative-Block Extractor never derives a speaker
from the heading (the speaker of every emitted record is exactly what the
first paragraph yields); a heading containing "policy lecture" maps the
display series name to "IMFS Policy Lecture"; and the scenario block with an
(empty) first paragraph preceding the date paragraph yields the record with
empty speaker, title fallen back to the series name, date 2025-11-27, time
"14:00" and location "Room A". -/
theorem claim_C2_amended :
    processFrame c2AmendedFrame = some c2AmendedRec ∧
    getS c2AmendedRec "seminar_name" = "IMFS Policy Lecture" ∧
    getS c2AmendedRec "speaker" = "" ∧
    ∀ (frame : Node) (rec : EventRec), processFrame frame = some rec →
      getS rec "speaker" = frameSpeakerText frame := by
  refine ⟨rfl, rfl, rfl, fun frame rec h => ?_⟩
  obtain ⟨heading, p1, ps, hh, hne, hp, hd, hrec⟩ := processFrame_inv frame rec h
  subst hrec
  have hs : frameSpeakerText frame = frameSpeaker p1 := by
    unfold frameSpeakerText frameFirstP
    rw [hp]
    rfl
  rw [hs]
  rfl

theorem claim_C2_witness :
    getS c2AmendedRec "speaker" = frameSpeakerText c2AmendedFrame :=
  claim_C2_amended.2.2.2 c2AmendedFrame c2AmendedRec claim_C2_amended.1

/-- Claim C3 counterexample: a narrative record reaches the final output with
only the 11 narrative keys — speaker_url, start_time, end_time, description
and description_html are omitted rather than present as empty strings. -/
theorem claim_C3_counterexample :
    aggregate [] (scrape_imfs c3Soup) = [c2AmendedRec] ∧
    c2AmendedRec.map Prod.fst = imfsKeys ∧
    lookupS c2AmendedRec "speaker_url" = none ∧
    imfsKeys ≠ wiwiKeys :=
  ⟨rfl, rfl, rfl, by decide⟩

/-- Claim C3 amended: every record of the Tabular Extractor exposes exactly
the 16-key field set (absent optional fields as empty strings); every record
of the Narrative-Block Extractor exposes exactly the 11-key subset that its
record literal enumerates, omitting speaker_url, start_time, end_time,
description and description_html. -/
theorem claim_C3_amended :
    (∀ (cfg : SeminarCfg) (fetchd : String → Option Node) (soup : Node) (rec : EventRec),
      rec ∈ scrape_wiwi_table cfg fetchd soup → rec.map Prod.fst = wiwiKeys) ∧
    (∀ (soup : Node) (rec : EventRec),
      rec ∈ scrape_imfs soup → rec.map Prod.fst = imfsKeys) := by
  constructor
  · intro cfg fetchd soup rec hmem
    unfold scrape_wiwi_table at hmem
    split at hmem
    · cases hmem
    · obtain ⟨tr, _, hpr⟩ := List.mem_filterMap.mp hmem
      obtain ⟨_, d, _, hrec⟩ := procRow_inv cfg fetchd tr rec hpr
      subst hrec
      rfl
  · intro soup rec hmem
    unfold scrape_imfs at hmem
    split at hmem
    · cases hmem
    · obtain ⟨frame, _, hpf⟩ := List.mem_filterMap.mp hmem
      obtain ⟨heading, p1, ps, _, _, _, _, hrec⟩ := processFrame_inv frame rec hpf
      subst hrec
      rfl

theorem claim_C3_witness :
    (wiwiRowRec ∈ scrape_wiwi_table c10Cfg (fun _ => none) wiwiSoup ∧
      wiwiRowRec.map Prod.fst = wiwiKeys) ∧
    (c2AmendedRec ∈ scrape_imfs c3Soup ∧ c2AmendedRec.map Prod.fst = imfsKeys) :=
  ⟨⟨by decide, claim_C3_amended.1 c10Cfg (fun _ => none) wiwiSoup wiwiRowRec (by decide)⟩,
   ⟨by decide, claim_C3_amended.2 c3Soup c2AmendedRec (by decide)⟩⟩


theorem lookupS_append (a b : EventRec) (k : String) :
    lookupS (a ++ b) k = (lookupS a k).orElse (fun _ => lookupS b k) := by
  unfold lookupS
  rw [List.find?_append]
  cases a.find? (fun p => p.1 == k) <;> rfl

/-- None of the non-title detail parts ever carries the "title" key. -/
theorem detail_rest_no_title (url : String) (container : Node) :
    ∀ p : String × String,
      p ∈ detailDatePart container ++ (detailTimePart container ++
        (detailLocPart container ++ (detailOrgPart url container ++
          detailDescPart container))) → p.1 ≠ "title" := by
  intro p hp
  simp only [List.mem_append] at hp
  rcases hp with h | h | h | h | h
  · unfold detailDatePart at h
    split at h
    · cases h
    · split at h
      · rcases List.mem_append.mp h with h1 | h2
        · rw [List.mem_singleton] at h1
          subst h1
          simp
        · split at h2
          · rw [List.mem_singleton] at h2
            subst h2
            simp
          · cases h2
      · cases h
  · unfold detailTimePart at h
    rcases List.mem_append.mp h with h1 | h2
    · rcases List.mem_append.mp h1 with h3 | h4
      · split at h3
        · rw [List.mem_singleton] at h3; subst h3; simp
        · cases h3
      · split at h4
        · rw [List.mem_singleton] at h4; subst h4; simp
        · cases h4
    · split at h2
      · rw [List.mem_singleton] at h2; subst h2; simp
      · split at h2
        · rw [List.mem_singleton] at h2; subst h2; simp
        · cases h2
  · unfold detailLocPart at h
    split at h
    · cases h
    · split at h
      · rw [List.mem_singleton] at h; subst h; simp
      · cases h
  · unfold detailOrgPart at h
    split at h
    · cases h
    · rcases List.mem_append.mp h with h1 | h2
      · split at h1
        · rw [List.mem_singleton] at h1; subst h1; simp
        · cases h1
      · split at h2
        · rw [List.mem_singleton] at h2; subst h2; simp
        · cases h2
  · unfold detailDescPart at h
    split at h
    · cases h
    · rcases List.mem_append.mp h with h1 | h2
      · split at h1
        · rw [List.mem_singleton] at h1; subst h1; simp
        · cases h1
      · split at h2
        · rw [List.mem_singleton] at h2; subst h2; simp
        · cases h2

/-- A title found in a detail mapping is never the empty string: the
extractor inserts the key only for nonempty heading text. -/
theorem details_title_nonempty (fetchd : String → Option Node) (url v : String)
    (h : lookupS (scrape_wiwi_details fetchd url) "title" = some v) : v ≠ "" := by
  unfold scrape_wiwi_details at h
  split at h
  · simp [lookupS] at h
  · split at h
    · simp [lookupS] at h
    · split at h
      · simp [lookupS] at h
      next container hceq =>
        rw [lookupS_append] at h
        have hrest := detail_rest_no_title url container
        have hnone : lookupS (detailDatePart container ++ (detailTimePart container ++
            (detailLocPart container ++ (detailOrgPart url container ++
              detailDescPart container)))) "title" = none := by
          unfold lookupS
          rw [List.find?_eq_none.mpr]
          · rfl
          · intro x hx
            simp only [beq_iff_eq]
            exact hrest x hx
        rcases ht : lookupS (detailTitlePart container) "title" with _ | w
        · rw [ht] at h
          simp only [Option.orElse] at h
          rw [hnone] at h
          cases h
        · rw [ht] at h
          simp only [Option.orElse] at h
          injection h with hv
          subst hv
          unfold detailTitlePart at ht
          split at ht
          next =>
            split at ht
            next htt =>
              simp only [lookupS, List.find?, beq_self_eq_true, Option.map_some] at ht
              injection ht with hw
              rw [← hw]
              exact htt
            next => simp [lookupS] at ht
          next => simp [lookupS] at ht

theorem displayName_ne (raw : String) (h : raw ≠ "") : displayName raw ≠ "" := by
  unfold displayName
  split
  · decide
  · split
    · decide
    · exact h

/-- Claim C9: every emitted record has a nonempty title; in the narrative
extractor a block with no recoverable title falls back to the display name
of the series. -/
theorem claim_C9 :
    (∀ (cfg : SeminarCfg) (fetchd : String → Option Node) (soup : Node) (rec : EventRec),
       rec ∈ scrape_wiwi_table cfg fetchd soup → getS rec "title" ≠ "") ∧
    (∀ (frame : Node) (rec : EventRec), processFrame frame = some rec →
       getS rec "title" ≠ "" ∧
       (frameTitleText frame = "" →
         getS rec "title" = displayName (frameHeadingText frame))) := by
  constructor
  · intro cfg fetchd soup rec hmem
    unfold scrape_wiwi_table at hmem
    split at hmem
    · cases hmem
    · obtain ⟨tr, _, hpr⟩ := List.mem_filterMap.mp hmem
      obtain ⟨ht, d, _, hrec⟩ := procRow_inv cfg fetchd tr rec hpr
      subst hrec
      have hg : getS (buildRowRec cfg
          (if rowDetailsUrl cfg.page tr ≠ "" then
            scrape_wiwi_details fetchd (rowDetailsUrl cfg.page tr)
          else [])
          (rowTitle tr) (rowSpeaker tr) (rowSpeakerUrl cfg.page tr) d
          (rowDateText tr) (rowDetailsUrl cfg.page tr)) "title" =
          getOr (if rowDetailsUrl cfg.page tr ≠ "" then
            scrape_wiwi_details fetchd (rowDetailsUrl cfg.page tr)
          else []) "title" (rowTitle tr) := rfl
      rw [hg]
      unfold getOr
      split
      next w hw =>
        split at hw
        · exact details_title_nonempty fetchd (rowDetailsUrl cfg.page tr) w hw
        · simp [lookupS] at hw
      · exact ht
  · intro frame rec h
    obtain ⟨heading, p1, ps, hh, hne, hp, hd, hrec⟩ := processFrame_inv frame rec h
    subst hrec
    have hg : getS [("seminar_id", "imfs"),
        ("seminar_name", displayName (getTextSep " " heading)),
        ("seminar_page", IMFS_URL),
        ("title",
          if frameTitle p1 = "" then displayName (getTextSep " " heading)
          else frameTitle p1),
        ("speaker", frameSpeaker p1),
        ("date", (secondParagraphData ps.head?).2.1),
        ("raw_date", (secondParagraphData ps.head?).1),
        ("time_info", (secondParagraphData ps.head?).2.2.1),
        ("location", (secondParagraphData ps.head?).2.2.2),
        ("details_url", frameDetailsUrl frame),
        ("source", "IMFS Frankfurt")] "title" =
        (if frameTitle p1 = "" then displayName (getTextSep " " heading)
         else frameTitle p1) := rfl
    rw [hg]
    have hht : frameHeadingText frame = getTextSep " " heading := by
      unfold frameHeadingText
      rw [hh]
    have htt : frameTitleText frame = frameTitle p1 := by
      unfold frameTitleText frameFirstP
      rw [hp]
      rfl
    constructor
    · split
      · exact displayName_ne (getTextSep " " heading) hne
      next h0 => exact h0
    · intro hzero
      rw [htt] at hzero
      rw [if_pos hzero, hht]

theorem claim_C9_witness :
    (wiwiRowRec ∈ scrape_wiwi_table c10Cfg (fun _ => none) wiwiSoup ∧
      getS wiwiRowRec "title" ≠ "") ∧
    (getS c2AmendedRec "title" ≠ "" ∧
      (frameTitleText c2AmendedFrame = "" →
        getS c2AmendedRec "title" = displayName (frameHeadingText c2AmendedFrame))) :=
  ⟨⟨by decide, claim_C9.1 c10Cfg (fun _ => none) wiwiSoup wiwiRowRec (by decide)⟩,
   claim_C9.2 c2AmendedFrame c2AmendedRec claim_C2_amended.1⟩


theorem dedupGo_sublist (seen : List (String × String × String)) (l : List EventRec) :
    List.Sublist (dedupGo seen l) l := by
  induction l generalizing seen with
  | nil => simp [dedupGo]
  | cons e t ih =>
    unfold dedupGo
    split
    · exact (ih seen).cons e
    · exact (ih _).cons₂ e

/-- The dedup loop keeps, for each key, exactly the first record with that
key among those whose key is not already in the seen set. -/
theorem dedupGo_filter (seen : List (String × String × String)) (l : List EventRec)
    (k : String × String × String) :
    (dedupGo seen l).filter (fun e => dedupKey e == k) =
      if seen.contains k then [] else (l.filter (fun e => dedupKey e == k)).take 1 := by
  induction l generalizing seen with
  | nil => simp [dedupGo]
  | cons e t ih =>
    unfold dedupGo
    by_cases hsk : seen.contains (dedupKey e) = true
    · rw [if_pos hsk, ih seen]
      by_cases hck : seen.contains k = true
      · rw [if_pos hck, if_pos hck]
      · rw [if_neg hck, if_neg hck, List.filter_cons]
        have hk2 : ¬(dedupKey e == k) = true := by
          intro hb
          exact hck (by rw [← beq_iff_eq.mp hb]; exact hsk)
        rw [if_neg hk2]
    · rw [if_neg hsk, List.filter_cons]
      by_cases hk : (dedupKey e == k) = true
      · have hkk : dedupKey e = k := beq_iff_eq.mp hk
        rw [if_pos hk, ih (dedupKey e :: seen)]
        have hin : (dedupKey e :: seen).contains k = true := by
          simp only [List.contains_cons]
          rw [beq_iff_eq.mpr hkk.symm]
          rfl
        rw [if_pos hin]
        have hcsk : ¬seen.contains k = true := by
          rw [← hkk]
          exact hsk
        rw [if_neg hcsk, List.filter_cons, if_pos hk]
        rfl
      · rw [if_neg hk, ih (dedupKey e :: seen)]
        have hne : (k == dedupKey e) = false := by
          rcases hbe : k == dedupKey e
          · rfl
          · exact absurd (beq_iff_eq.mpr (beq_iff_eq.mp hbe).symm) hk
        have hsame : (dedupKey e :: seen).contains k = seen.contains k := by
          simp only [List.contains_cons]
          rw [hne, Bool.false_or]
        rw [hsame]
        by_cases hck : seen.contains k = true
        · rw [if_pos hck, if_pos hck]
        · rw [if_neg hck, if_neg hck, List.filter_cons, if_neg hk]

/-- Claim C5: the Aggregator keeps, for each distinct (seminar_id, title,
date) key, exactly the first record encountered in the concatenation of the
extractor outputs (tabular sources first, narrative source last), discarding
later duplicates and never altering a record (the survivors form a sublist
of the input). -/
theorem claim_C5 (tabular : List (List EventRec)) (narrative : List EventRec) :
    List.Sublist (dedupe (tabular.flatten ++ narrative)) (tabular.flatten ++ narrative) ∧
    ∀ k : String × String × String,
      (dedupe (tabular.flatten ++ narrative)).filter (fun e => dedupKey e == k) =
        ((tabular.flatten ++ narrative).filter (fun e => dedupKey e == k)).take 1 := by
  refine ⟨dedupGo_sublist [] _, fun k => ?_⟩
  rw [dedupe, dedupGo_filter]
  rfl

def dateLe (a b : EventRec) : Prop := getS a "date" ≤ getS b "date"

theorem mem_insEv (x e : EventRec) (acc : List EventRec) :
    x ∈ insEv e acc → x = e ∨ x ∈ acc := by
  induction acc with
  | nil =>
    intro h
    simp [insEv] at h
    exact Or.inl h
  | cons a l ih =>
    intro h
    unfold insEv at h
    split at h
    · rcases List.mem_cons.mp h with rfl | h2
      · exact Or.inr (List.mem_cons_self _ _)
      · rcases ih h2 with h1 | h3
        · exact Or.inl h1
        · exact Or.inr (List.mem_cons_of_mem a h3)
    · rcases List.mem_cons.mp h with rfl | h2
      · exact Or.inl rfl
      · exact Or.inr h2

theorem insEv_pairwise (e : EventRec) (acc : List EventRec) :
    List.Pairwise dateLe acc → List.Pairwise dateLe (insEv e acc) := by
  induction acc with
  | nil =>
    intro _
    simp [insEv, List.pairwise_cons]
  | cons a l ih =>
    intro h
    rw [List.pairwise_cons] at h
    unfold insEv
    split
    next hle =>
      rw [List.pairwise_cons]
      refine ⟨fun x hx => ?_, ih h.2⟩
      rcases mem_insEv x e l hx with rfl | hxl
      · exact hle
      · exact h.1 x hxl
    next hgt =>
      rw [List.pairwise_cons]
      refine ⟨fun x hx => ?_, by rw [List.pairwise_cons]; exact h⟩
      rcases List.mem_cons.mp hx with rfl | hxl
      · exact le_of_not_le hgt
      · exact le_trans (le_of_not_le hgt) (h.1 x hxl)

theorem foldl_ins_pairwise (l : List EventRec) :
    ∀ acc : List EventRec, List.Pairwise dateLe acc →
      List.Pairwise dateLe (l.foldl (fun acc e => insEv e acc) acc) := by
  induction l with
  | nil => exact fun acc h => h
  | cons e t ih => exact fun acc h => ih (insEv e acc) (insEv_pairwise e acc h)

theorem sortByDate_pairwise (l : List EventRec) :
    List.Pairwise dateLe (sortByDate l) :=
  foldl_ins_pairwise l [] List.Pairwise.nil

/-- Stable insertion into a sorted accumulator: filtering by any date value
appends the new element after the accumulator's occurrences. -/
theorem insEv_filter (e : EventRec) (acc : List EventRec) (d : String) :
    List.Pairwise dateLe acc →
    (insEv e acc).filter (fun r => getS r "date" == d) =
      acc.filter (fun r => getS r "date" == d) ++
        (if getS e "date" == d then [e] else []) := by
  induction acc with
  | nil =>
    intro _
    simp [insEv, List.filter_cons]
  | cons a l ih =>
    intro h
    rw [List.pairwise_cons] at h
    unfold insEv
    split
    next hle =>
      rw [List.filter_cons, List.filter_cons]
      by_cases hpa : (getS a "date" == d) = true
      · rw [if_pos hpa, if_pos hpa, ih h.2, List.cons_append]
      · rw [if_neg hpa, if_neg hpa, ih h.2]
    next hgt =>
      rw [List.filter_cons]
      by_cases hpe : (getS e "date" == d) = true
      · have hda : getS e "date" < getS a "date" := lt_of_not_le hgt
        have hnil : (a :: l).filter (fun r => getS r "date" == d) = [] := by
          rw [List.filter_eq_nil_iff]
          intro x hx
          rcases List.mem_cons.mp hx with rfl | hxl
          · intro hb
            exact absurd (beq_iff_eq.mp hb)
              (by rw [← beq_iff_eq.mp hpe]; exact ne_of_gt hda)
          · intro hb
            have hax : getS a "date" ≤ getS x "date" := h.1 x hxl
            have hex : getS e "date" < getS x "date" := lt_of_lt_of_le hda hax
            exact absurd (beq_iff_eq.mp hb)
              (by rw [← beq_iff_eq.mp hpe]; exact ne_of_gt hex)
        rw [hnil, if_pos hpe]
        rfl
      · rw [if_neg hpe, if_neg hpe, List.append_nil]

theorem foldl_ins_filter (l : List EventRec) (d : String) :
    ∀ acc : List EventRec, List.Pairwise dateLe acc →
    (l.foldl (fun acc e => insEv e acc) acc).filter (fun r => getS r "date" == d) =
      acc.filter (fun r => getS r "date" == d) ++
        l.filter (fun r => getS r "date" == d) := by
  induction l with
  | nil =>
    intro acc _
    simp
  | cons e t ih =>
    intro acc h
    rw [List.foldl_cons, ih (insEv e acc) (insEv_pairwise e acc h),
      insEv_filter e acc d h, List.filter_cons]
    by_cases hpe : (getS e "date" == d) = true
    · rw [if_pos hpe, if_pos hpe, List.append_assoc]
      rfl
    · rw [if_neg hpe, if_neg hpe, List.append_nil]

/-- Claim C6: the aggregated output is non-decreasing by the ISO date string,
and among records with equal date the relative order of the deduplicated
input is preserved (the sort is stable). -/
theorem claim_C6 (tabular : List (List EventRec)) (narrative : List EventRec) :
    List.Pairwise (fun a b => getS a "date" ≤ getS b "date")
      (aggregate tabular narrative) ∧
    ∀ d : String,
      (aggregate tabular narrative).filter (fun e => getS e "date" == d) =
        (dedupe (tabular.flatten ++ narrative)).filter (fun e => getS e "date" == d) := by
  constructor
  · exact sortByDate_pairwise _
  · intro d
    unfold aggregate sortByDate
    rw [foldl_ins_filter _ d [] List.Pairwise.nil]
    rfl


/-! Toolkit for the symbolic parse_date proofs of claims C1 and C4. -/

theorem char_ne_of_toNat (c d : Char) (h : c.toNat ≠ d.toNat) : c ≠ d :=
  fun he => h (by rw [he])

theorem alpha_bounds (c : Char) (h : isAsciiAlpha c = true) :
    (65 ≤ c.toNat ∧ c.toNat ≤ 90) ∨ (97 ≤ c.toNat ∧ c.toNat ≤ 122) := by
  unfold isAsciiAlpha at h
  simp only [Bool.or_eq_true, Bool.and_eq_true, decide_eq_true_eq] at h
  rcases h with ⟨h1, h2⟩ | ⟨h1, h2⟩
  · exact Or.inl ⟨h1, h2⟩
  · exact Or.inr ⟨h1, h2⟩

theorem alpha_not_digit (c : Char) (h : isAsciiAlpha c = true) :
    isDigitChar c = false := by
  have hb := alpha_bounds c h
  unfold isDigitChar
  have hd : decide (c ≤ '9') = false :=
    decide_eq_false (fun hc => by
      have h57 : c.toNat ≤ 57 := hc
      rcases hb with ⟨h1, _⟩ | ⟨h1, _⟩ <;> omega)
  rw [hd, Bool.and_false]

theorem alpha_not_ws (c : Char) (h : isAsciiAlpha c = true) :
    isWsChar c = false := by
  have hb := alpha_bounds c h
  have h65 : 65 ≤ c.toNat := by rcases hb with ⟨h1, _⟩ | ⟨h1, _⟩ <;> omega
  unfold isWsChar
  have w1 : decide (c = ' ') = false :=
    decide_eq_false (char_ne_of_toNat c ' '
      (by rw [show (' ' : Char).toNat = 32 from rfl]; omega))
  have w2 : decide (c = '\t') = false :=
    decide_eq_false (char_ne_of_toNat c '\t'
      (by rw [show ('\t' : Char).toNat = 9 from rfl]; omega))
  have w3 : decide (c = '\n') = false :=
    decide_eq_false (char_ne_of_toNat c '\n'
      (by rw [show ('\n' : Char).toNat = 10 from rfl]; omega))
  have w4 : decide (c = '\r') = false :=
    decide_eq_false (char_ne_of_toNat c '\r'
      (by rw [show ('\r' : Char).toNat = 13 from rfl]; omega))
  have w5 : decide (c = Char.ofNat 11) = false :=
    decide_eq_false (char_ne_of_toNat c (Char.ofNat 11)
      (by rw [show (Char.ofNat 11).toNat = 11 from rfl]; omega))
  have w6 : decide (c = Char.ofNat 12) = false :=
    decide_eq_false (char_ne_of_toNat c (Char.ofNat 12)
      (by rw [show (Char.ofNat 12).toNat = 12 from rfl]; omega))
  rw [w1, w2, w3, w4, w5, w6]
  rfl

theorem alpha_letterClass (c : Char) (h : isAsciiAlpha c = true) :
    letterClass c = true := by
  unfold letterClass
  rw [h, Bool.true_or]

theorem alpha_letterDotClass (c : Char) (h : isAsciiAlpha c = true) :
    letterDotClass c = true := by
  unfold letterDotClass
  rw [alpha_letterClass c h, Bool.true_or]

theorem alpha_wordChar (c : Char) (h : isAsciiAlpha c = true) :
    isWordChar c = true := by
  unfold isWordChar
  rw [h]
  rfl

theorem alpha_ne_comma (c : Char) (h : isAsciiAlpha c = true) : c ≠ ',' := by
  have hb := alpha_bounds c h
  exact char_ne_of_toNat c ','
    (by rw [show (',' : Char).toNat = 44 from rfl]
        rcases hb with ⟨h1, _⟩ | ⟨h1, _⟩ <;> omega)

theorem alpha_ne_dot (c : Char) (h : isAsciiAlpha c = true) : c ≠ '.' := by
  have hb := alpha_bounds c h
  exact char_ne_of_toNat c '.'
    (by rw [show ('.' : Char).toNat = 46 from rfl]
        rcases hb with ⟨h1, _⟩ | ⟨h1, _⟩ <;> omega)

theorem normChar_small (c : Char) (h : c.toNat ≤ 122) : normChar c = c := by
  unfold normChar
  have n1 : decide (c = Char.ofNat 0xa0) = false :=
    decide_eq_false (char_ne_of_toNat c (Char.ofNat 0xa0)
      (by rw [show (Char.ofNat 0xa0).toNat = 160 from rfl]; omega))
  have n2 : decide (c = Char.ofNat 0x2013) = false :=
    decide_eq_false (char_ne_of_toNat c (Char.ofNat 0x2013)
      (by rw [show (Char.ofNat 0x2013).toNat = 0x2013 from rfl]; omega))
  have n3 : decide (c = Char.ofNat 0x2014) = false :=
    decide_eq_false (char_ne_of_toNat c (Char.ofNat 0x2014)
      (by rw [show (Char.ofNat 0x2014).toNat = 0x2014 from rfl]; omega))
  simp only [decide_eq_true_eq] at n1 n2 n3
  rw [if_neg (by simpa using n1), if_neg (by simpa using n2), if_neg (by simpa using n3)]

theorem map_id_of_mem {f : Char → Char} (l : List Char) (h : ∀ c ∈ l, f c = c) :
    l.map f = l := by
  induction l with
  | nil => rfl
  | cons a t ih =>
    rw [List.map_cons, h a (List.mem_cons_self _ _),
      ih (fun c hc => h c (List.mem_cons_of_mem a hc))]

theorem takeWhile_append_all (p : Char → Bool) (l1 l2 : List Char)
    (h : ∀ c ∈ l1, p c = true) :
    (l1 ++ l2).takeWhile p = l1 ++ l2.takeWhile p := by
  induction l1 with
  | nil => rfl
  | cons a t ih =>
    rw [List.cons_append, List.takeWhile_cons, h a (List.mem_cons_self _ _)]
    rw [ih (fun c hc => h c (List.mem_cons_of_mem a hc))]
    rfl

theorem dropWhile_append_all (p : Char → Bool) (l1 l2 : List Char)
    (h : ∀ c ∈ l1, p c = true) :
    (l1 ++ l2).dropWhile p = l2.dropWhile p := by
  induction l1 with
  | nil => rfl
  | cons a t ih =>
    rw [List.cons_append, List.dropWhile_cons, h a (List.mem_cons_self _ _)]
    exact ih (fun c hc => h c (List.mem_cons_of_mem a hc))

theorem stripCharsL_id (p : Char → Bool) (l : List Char) (c1 c2 : Char)
    (hh : l.head? = some c1) (hp1 : p c1 = false)
    (hl : l.getLast? = some c2) (hp2 : p c2 = false) :
    stripCharsL p l = l := by
  unfold stripCharsL
  cases l with
  | nil => cases hh
  | cons a t =>
    have h1 : a = c1 := by
      rw [List.head?_cons] at hh
      exact Option.some.inj hh
    have hp1a : p a = false := by rw [h1]; exact hp1
    rw [List.dropWhile_cons, hp1a]
    simp only [Bool.false_eq_true, if_false]
    rcases hrev : (a :: t).reverse with _ | ⟨b, r⟩
    · exact absurd (congrArg List.length hrev) (by simp)
    · have hb : b = c2 := by
        have h3 : (a :: t).reverse.head? = some c2 := by
          rw [List.head?_reverse]
          exact hl
        rw [hrev, List.head?_cons] at h3
        exact Option.some.inj h3
      have hp2b : p b = false := by rw [hb]; exact hp2
      rw [List.dropWhile_cons, hp2b]
      simp only [Bool.false_eq_true, if_false]
      rw [← hrev, List.reverse_reverse]

theorem pstrip_eq_stripChars (l : List Char) : pstrip l = stripCharsL isWsChar l := rfl


theorem uhrHere_not_u (c : Char) (xs : List Char) (h : lcChar c ≠ 'u') :
    uhrHere (c :: xs) = false := by
  cases xs with
  | nil => rfl
  | cons c2 t =>
    cases t with
    | nil => rfl
    | cons c3 t2 => simp [uhrHere, h]

theorem removeUhrGo_cons (prev : Bool) (c : Char) (cs : List Char)
    (h : (!prev && uhrHere (c :: cs)) = false) :
    removeUhrGo prev (c :: cs) = c :: removeUhrGo (isWordChar c) cs := by
  cases cs with
  | nil => rfl
  | cons c2 t =>
    cases t with
    | nil => rfl
    | cons c3 t2 =>
      simp only [removeUhrGo]
      rw [h, if_neg Bool.false_ne_true]

theorem removeUhrGo_word_run (tok rest : List Char)
    (h : ∀ c ∈ tok, isWordChar c = true) :
    removeUhrGo true (tok ++ rest) = tok ++ removeUhrGo true rest := by
  induction tok with
  | nil => rfl
  | cons c t ih =>
    rw [List.cons_append, removeUhrGo_cons true c (t ++ rest) (by simp),
      h c (List.mem_cons_self _ _), ih (fun x hx => h x (List.mem_cons_of_mem c hx))]
    rfl

/-- A non-word character cannot lowercase to an ASCII letter. -/
theorem nonword_lc_ne (r : Char) (h : isWordChar r = false) (d : Char)
    (hd : isAsciiAlpha d = true) : lcChar r ≠ d := by
  intro he
  have hw : isWordChar r = true := by
    unfold lcChar at he
    split at he
    next hAZ =>
      unfold isWordChar
      rw [show isAsciiAlpha r = true from by unfold isAsciiAlpha; rw [hAZ]; rfl]
      rfl
    next =>
      split at he
      next hA =>
        unfold isWordChar isUmlautChar
        rw [hA]
        simp
      next =>
        split at he
        next hO =>
          unfold isWordChar isUmlautChar
          rw [hO]
          simp
        next =>
          split at he
          next hU =>
            unfold isWordChar isUmlautChar
            rw [hU]
            simp
          next =>
            subst he
            unfold isWordChar
            rw [hd]
            rfl
  rw [h] at hw
  cases hw

theorem uhrHere_tok_false (tok rest : List Char) (hne : tok ≠ [])
    (halpha : ∀ c ∈ tok, isAsciiAlpha c = true)
    (hlc : lcList tok ≠ ['u', 'h', 'r'])
    (hrest : ∀ r, rest.head? = some r → isWordChar r = false) :
    uhrHere (tok ++ rest) = false := by
  cases tok with
  | nil => exact absurd rfl hne
  | cons c1 t1 =>
    cases t1 with
    | nil =>
      cases rest with
      | nil => rfl
      | cons r rs =>
        cases rs with
        | nil => rfl
        | cons r2 rs2 =>
          have hr : isWordChar r = false := hrest r rfl
          simp [uhrHere, nonword_lc_ne r hr 'h' (by decide)]
    | cons c2 t2 =>
      cases t2 with
      | nil =>
        cases rest with
        | nil => rfl
        | cons r rs =>
          have hr : isWordChar r = false := hrest r rfl
          simp [uhrHere, nonword_lc_ne r hr 'r' (by decide)]
      | cons c3 t3 =>
        cases t3 with
        | cons c4 t4 =>
          have h4 : isWordChar c4 = true :=
            alpha_wordChar c4 (halpha c4 (by simp))
          simp [uhrHere, h4]
        | nil =>
          by_cases b1 : lcChar c1 = 'u'
          · by_cases b2 : lcChar c2 = 'h'
            · by_cases b3 : lcChar c3 = 'r'
              · exact absurd (by simp [lcList, b1, b2, b3]) hlc
              · simp [uhrHere, b3]
            · simp [uhrHere, b2]
          · simp [uhrHere, b1]

theorem removeUhrGo_false_tok (tok rest : List Char) (hne : tok ≠ [])
    (halpha : ∀ c ∈ tok, isAsciiAlpha c = true)
    (hlc : lcList tok ≠ ['u', 'h', 'r'])
    (hrest : ∀ r, rest.head? = some r → isWordChar r = false) :
    removeUhrGo false (tok ++ rest) = tok ++ removeUhrGo true rest := by
  cases tok with
  | nil => exact absurd rfl hne
  | cons c t =>
    have hguard : (!false && uhrHere (c :: (t ++ rest))) = false := by
      rw [Bool.not_false, Bool.true_and, ← List.cons_append]
      exact uhrHere_tok_false (c :: t) rest (by simp) halpha hlc hrest
    rw [List.cons_append, removeUhrGo_cons false c (t ++ rest) hguard,
      alpha_wordChar c (halpha c (List.mem_cons_self _ _)),
      removeUhrGo_word_run t rest
        (fun x hx => alpha_wordChar x (halpha x (List.mem_cons_of_mem c hx)))]
    rfl


theorem mDigits_none (lo hi : Nat) (hlo : 1 ≤ lo) (c : Char) (xs : List Char)
    (h : isDigitChar c = false) : mDigits lo hi (c :: xs) = none := by
  unfold mDigits
  rw [List.takeWhile_cons, h]
  simp only [Bool.false_eq_true, if_false, List.take_nil, List.length_nil]
  rw [if_neg (by omega)]

theorem matchP1_alpha (c : Char) (xs : List Char) (h : isAsciiAlpha c = true) :
    matchP1 (c :: xs) = none := by
  unfold matchP1
  rw [mDigits_none 1 2 (by omega) c xs (alpha_not_digit c h)]

theorem matchP2_alpha (c : Char) (xs : List Char) (h : isAsciiAlpha c = true) :
    matchP2 (c :: xs) = none := by
  unfold matchP2
  rw [mDigits_none 1 2 (by omega) c xs (alpha_not_digit c h)]

theorem matchP3_alpha (c : Char) (xs : List Char) (h : isAsciiAlpha c = true) :
    matchP3 (c :: xs) = none := by
  unfold matchP3
  rw [mDigits_none 1 2 (by omega) c xs (alpha_not_digit c h)]

theorem matchP4_alpha (c : Char) (xs : List Char) (h : isAsciiAlpha c = true) :
    matchP4 (c :: xs) = none := by
  unfold matchP4
  rw [mDigits_none 4 4 (by omega) c xs (alpha_not_digit c h)]

theorem searchM_append_skip (m : List Char → Option (List Char)) (l1 l2 : List Char)
    (h : ∀ c ∈ l1, ∀ xs, m (c :: xs) = none) :
    searchM m (l1 ++ l2) = searchM m l2 := by
  induction l1 with
  | nil => rfl
  | cons c t ih =>
    rw [List.cons_append]
    simp only [searchM]
    rw [h c (List.mem_cons_self _ _) (t ++ l2)]
    exact ih (fun x hx xs => h x (List.mem_cons_of_mem c hx) xs)

theorem commaStep_no_comma (l : List Char) (h : ∀ c ∈ l, c ≠ ',') :
    commaStep l = l := by
  unfold commaStep
  have hc : l.contains ',' = false := by
    rcases hb : l.contains ','
    · rfl
    · exact absurd rfl (h ',' (List.mem_of_elem_eq_true hb))
  rw [hc, if_neg Bool.false_ne_true]

/-- The comma step on a string whose first comma splits it as
head ++ "," ++ tail. -/
theorem commaStep_eq (head tail : List Char) (hnc : ∀ c ∈ head, c ≠ ',') :
    commaStep (head ++ ',' :: tail) =
      if !has4Digits head then
        (if weekdayHit (pstrip head ++ [' ']) then pstrip tail
         else head ++ ',' :: tail)
      else head ++ ',' :: tail := by
  unfold commaStep
  have hcon : (head ++ ',' :: tail).contains ',' = true :=
    List.elem_eq_true_of_mem (List.mem_append_right _ (List.mem_cons_self _ _))
  rw [hcon, if_pos rfl]
  have htake : (head ++ ',' :: tail).takeWhile (fun c => c ≠ ',') = head := by
    rw [takeWhile_append_all _ head _ (fun c hc => decide_eq_true (hnc c hc)),
      List.takeWhile_cons]
    simp
  have hdrop : ((head ++ ',' :: tail).dropWhile (fun c => c ≠ ',')).drop 1 = tail := by
    rw [dropWhile_append_all _ head _ (fun c hc => decide_eq_true (hnc c hc)),
      List.dropWhile_cons]
    simp
  rw [htake, hdrop]

theorem digitRunGo_zero_append (l1 l2 : List Char)
    (h : ∀ c ∈ l1, isDigitChar c = false) :
    digitRunGo 0 (l1 ++ l2) = digitRunGo 0 l2 := by
  induction l1 with
  | nil => rfl
  | cons c t ih =>
    rw [List.cons_append]
    simp only [digitRunGo]
    rw [h c (List.mem_cons_self _ _)]
    simp only [Bool.false_eq_true, if_false]
    exact ih (fun x hx => h x (List.mem_cons_of_mem c hx))


/-- Claim C4 counterexample: "x, Nov 18, 2025" has a comma whose pre-comma
portion "x" holds no 4-digit year, yet the portion is not discarded — the
parse fails, while parsing the after-comma portion alone succeeds. -/
theorem claim_C4_counterexample :
    parse_date "x, Nov 18, 2025" =
      Except.error "Unrecognized date format: x, Nov 18, 2025" ∧
    parse_date "Nov 18, 2025" = Except.ok "2025-11-18" :=
  ⟨rfl, rfl⟩

/-- Claim C4 amended: when the preprocessed text splits at its first comma
into head and tail with no 4-digit run in head, the head is discarded (and
parsing proceeds on the stripped tail) exactly when the stripped head with a
trailing space matches the weekday-token pattern; otherwise the text is kept
whole. -/
theorem claim_C4_amended (s : String) (head tail : List Char)
    (hsplit : preprocess s = head ++ ',' :: tail)
    (hnc : ∀ c ∈ head, c ≠ ',')
    (h4 : has4Digits head = false) :
    (weekdayHit (pstrip head ++ [' ']) = true →
      parse_date s = parseCore (pstrip tail) s) ∧
    (weekdayHit (pstrip head ++ [' ']) = false →
      parse_date s = parseCore (head ++ ',' :: tail) s) := by
  have hbase : parse_date s = parseCore (commaStep (head ++ ',' :: tail)) s := by
    unfold parse_date
    rw [hsplit]
  rw [commaStep_eq head tail hnc, h4] at hbase
  constructor
  · intro hw
    rw [hw] at hbase
    simpa using hbase
  · intro hw
    rw [hw] at hbase
    simpa using hbase

theorem claim_C4_witness :
    preprocess "Mittwoch, Mittwoch, 27.11.2025" =
      "Mittwoch".data ++ ',' :: " 27.11.2025".data ∧
    weekdayHit (pstrip "Mittwoch".data ++ [' ']) = true ∧
    parse_date "Mittwoch, Mittwoch, 27.11.2025" =
      parseCore (pstrip " 27.11.2025".data) "Mittwoch, Mittwoch, 27.11.2025" :=
  ⟨rfl, rfl,
    (claim_C4_amended "Mittwoch, Mittwoch, 27.11.2025" "Mittwoch".data
      " 27.11.2025".data rfl (by decide) rfl).1 rfl⟩


theorem firstTok_head2 (xs : List Char) :
    firstTok WEEKDAY_TOKENS ('2' :: xs) = none := rfl

theorem firstTok_head0 (xs : List Char) :
    firstTok WEEKDAY_TOKENS ('0' :: xs) = none := rfl

theorem mem_of_getLast_some (l : List Char) (z : Char) (h : l.getLast? = some z) :
    z ∈ l := by
  induction l with
  | nil => cases h
  | cons a t ih =>
    cases t with
    | nil =>
      rw [show ([a] : List Char).getLast? = some a from rfl] at h
      rw [← Option.some.inj h]
      exact List.mem_cons_self _ _
    | cons b u =>
      rw [List.getLast?_cons_cons] at h
      exact List.mem_cons_of_mem a (ih h)

theorem getLast_append_right (l1 l2 : List Char) (hne : l2 ≠ []) :
    (l1 ++ l2).getLast? = l2.getLast? := by
  induction l1 with
  | nil => rfl
  | cons a t ih =>
    rw [List.cons_append]
    cases htl : t ++ l2 with
    | nil => exact absurd (List.append_eq_nil.mp htl).2 hne
    | cons b u =>
      rw [htl] at ih
      rw [List.getLast?_cons_cons]
      exact ih

theorem tok_getLast_alpha (c : Char) (t : List Char)
    (halpha : ∀ x ∈ c :: t, isAsciiAlpha x = true) :
    ∃ z, (c :: t).getLast? = some z ∧ isAsciiAlpha z = true := by
  rcases hlast : (c :: t).getLast? with _ | z
  · exact absurd hlast (by simp)
  · exact ⟨z, rfl, halpha z (mem_of_getLast_some _ z hlast)⟩

theorem stripDots_alpha (c : Char) (t : List Char)
    (halpha : ∀ x ∈ c :: t, isAsciiAlpha x = true) :
    stripDotsEnds (c :: t) = c :: t := by
  obtain ⟨z, hz, hza⟩ := tok_getLast_alpha c t halpha
  unfold stripDotsEnds
  exact stripCharsL_id _ _ c z rfl
    (decide_eq_false (alpha_ne_dot c (halpha c (List.mem_cons_self _ _)))) hz
    (decide_eq_false (alpha_ne_dot z hza))

theorem pstrip_alpha_sandwich (c : Char) (t rest : List Char)
    (hz : rest.getLast? = some '5') :
    pstrip ('2':: '7':: '.':: ' '::c::(t ++ rest)) =
      '2':: '7':: '.':: ' '::c::(t ++ rest) := by
  have hrne : rest ≠ [] := fun h => by rw [h] at hz; cases hz
  have hl : ('2':: '7':: '.':: ' '::c::(t ++ rest)).getLast? = some '5' := by
    rw [show '2':: '7':: '.':: ' '::c::(t ++ rest) =
        ['2','7','.',' '] ++ ((c :: t) ++ rest) from by simp,
      getLast_append_right _ _ (by simp [hrne]),
      getLast_append_right _ _ hrne, hz]
  rw [pstrip_eq_stripChars]
  exact stripCharsL_id isWsChar ('2':: '7':: '.':: ' '::c::(t ++ rest)) '2' '5' rfl rfl hl rfl

theorem mB3_27dot (u : List Char) : mB3 ('2':: '7':: '.'::u) =
    (match mClassPlus letterDotClass (u.dropWhile isWsChar) with
     | none => none
     | some (g2, r2) =>
       match mWsPlus r2 with
       | none => none
       | some (_, r3) =>
         match mDigits 4 4 r3 with
         | some (y, []) => some (27, g2, digitsToNat y)
         | _ => none) := rfl

theorem matchP1_27dot (u : List Char) : matchP1 ('2':: '7':: '.'::u) =
    (match mClassPlus letterClass (u.dropWhile isWsChar) with
     | none => none
     | some (ls, r3) =>
       let dr := match r3 with
         | '.' :: rr => ((['.'] : List Char), rr)
         | _ => (([] : List Char), r3)
       match mWsPlus dr.2 with
       | none => none
       | some (w2, r5) =>
         match mDigits 4 4 r5 with
         | none => none
         | some (y, _) =>
           some (['2','7'] ++ '.' :: (u.takeWhile isWsChar ++ ls ++ dr.1 ++ w2 ++ y))) := rfl

theorem parseCore_b3_unknown (l : List Char) (orig : String) (d y : Nat) (g2 : List Char)
    (hex2 : extractCandidate l = l) (hiso : isoTHead l = false)
    (h1 : mB1 l = none) (h2 : mB2 l = none) (h3 : mB3 l = some (d, g2, y))
    (hmg : monthGet (String.mk (lcList (stripDotsEnds g2))) = none) :
    parseCore l orig =
      Except.error (unknownMonthMsg (String.mk (lcList (stripDotsEnds g2))) orig) := by
  simp only [parseCore]
  rw [hex2]
  rw [if_neg (show ¬ isoTHead l = true from by rw [hiso]; exact Bool.false_ne_true)]
  rw [h1, h2, h3]
  simp only []
  rw [hmg]

/-- Shape "27. TOK 2025" with an unknown alphabetic month token: the parse
fails with the unknown-month error naming the lowercased token. -/
theorem c1_shapeA (tok : List Char) (hne : tok ≠ [])
    (halpha : ∀ x ∈ tok, isAsciiAlpha x = true)
    (hmg : monthGet (String.mk (lcList tok)) = none)
    (hlc : lcList tok ≠ ['u', 'h', 'r']) :
    parse_date (c1FormA tok) =
      Except.error (unknownMonthMsg (String.mk (lcList tok)) (c1FormA tok)) := by
  obtain ⟨c, t, rfl⟩ : ∃ c t, tok = c :: t := by
    cases tok with
    | nil => exact absurd rfl hne
    | cons c t => exact ⟨c, t, rfl⟩
  have hca : isAsciiAlpha c = true := halpha c (List.mem_cons_self _ _)
  have hta : ∀ x ∈ t, isAsciiAlpha x = true :=
    fun x hx => halpha x (List.mem_cons_of_mem c hx)
  have hdata : (c1FormA (c :: t)).data =
      '2':: '7':: '.':: ' '::c::(t ++ (' ':: '2':: '0':: '2':: '5'::[])) := by
    show "27. ".data ++ (c :: t) ++ " 2025".data = _
    rw [show "27. ".data = ['2','7','.',' '] from rfl,
      show " 2025".data = [' ','2','0','2','5'] from rfl]
    simp
  have hnorm : ('2':: '7':: '.':: ' '::c::(t ++ (' ':: '2':: '0':: '2':: '5'::[]))).map normChar =
      '2':: '7':: '.':: ' '::c::(t ++ (' ':: '2':: '0':: '2':: '5'::[])) := by
    apply map_id_of_mem
    intro x hx
    simp only [List.mem_cons, List.mem_append] at hx
    rcases hx with rfl | rfl | rfl | rfl | rfl | hx | rfl | rfl | rfl | rfl | rfl | hx
    · rfl
    · rfl
    · rfl
    · rfl
    · exact normChar_small x (by
        rcases alpha_bounds x hca with ⟨h1, h2⟩ | ⟨h1, h2⟩ <;> omega)
    · exact normChar_small x (by
        rcases alpha_bounds x (hta x hx) with ⟨h1, h2⟩ | ⟨h1, h2⟩ <;> omega)
    · rfl
    · rfl
    · rfl
    · rfl
    · rfl
    · cases hx
  have hremove : removeUhr ('2':: '7':: '.':: ' '::c::(t ++ (' ':: '2':: '0':: '2':: '5'::[]))) =
      '2':: '7':: '.':: ' '::c::(t ++ (' ':: '2':: '0':: '2':: '5'::[])) := by
    unfold removeUhr
    rw [removeUhrGo_cons false '2' _
        (by rw [Bool.not_false, Bool.true_and]; exact uhrHere_not_u '2' _ (by decide)),
      show isWordChar '2' = true from rfl,
      removeUhrGo_cons true '7' _ (by simp),
      show isWordChar '7' = true from rfl,
      removeUhrGo_cons true '.' _ (by simp),
      show isWordChar '.' = false from rfl,
      removeUhrGo_cons false ' ' _
        (by rw [Bool.not_false, Bool.true_and]; exact uhrHere_not_u ' ' _ (by decide)),
      show isWordChar ' ' = false from rfl,
      show c::(t ++ (' ':: '2':: '0':: '2':: '5'::[])) =
        (c :: t) ++ (' ':: '2':: '0':: '2':: '5'::[]) from rfl]
    rw [removeUhrGo_false_tok (c :: t) (' ':: '2':: '0':: '2':: '5'::[]) (by simp) halpha hlc
        (fun r hr => by
          rw [List.head?_cons] at hr
          rw [← Option.some.inj hr]
          rfl),
      show removeUhrGo true (' ':: '2':: '0':: '2':: '5'::[]) = ' ':: '2':: '0':: '2':: '5'::[] from rfl]
  have hlast5 : (' ':: '2':: '0':: '2':: '5'::([] : List Char)).getLast? = some '5' := rfl
  have hstrip := pstrip_alpha_sandwich c t (' ':: '2':: '0':: '2':: '5'::[]) hlast5
  have hweek : weekdaySub ('2':: '7':: '.':: ' '::c::(t ++ (' ':: '2':: '0':: '2':: '5'::[]))) =
      '2':: '7':: '.':: ' '::c::(t ++ (' ':: '2':: '0':: '2':: '5'::[])) := by
    unfold weekdaySub
    rw [firstTok_head2]
  have hcomma : commaStep ('2':: '7':: '.':: ' '::c::(t ++ (' ':: '2':: '0':: '2':: '5'::[]))) =
      '2':: '7':: '.':: ' '::c::(t ++ (' ':: '2':: '0':: '2':: '5'::[])) := by
    apply commaStep_no_comma
    intro x hx
    simp only [List.mem_cons, List.mem_append] at hx
    rcases hx with rfl | rfl | rfl | rfl | rfl | hx | rfl | rfl | rfl | rfl | rfl | hx
    · decide
    · decide
    · decide
    · decide
    · exact alpha_ne_comma x hca
    · exact alpha_ne_comma x (hta x hx)
    · decide
    · decide
    · decide
    · decide
    · decide
    · cases hx
  have hpre : preprocess (c1FormA (c :: t)) =
      '2':: '7':: '.':: ' '::c::(t ++ (' ':: '2':: '0':: '2':: '5'::[])) := by
    unfold preprocess
    rw [hdata, hnorm, hremove, hstrip, hweek, hstrip]
  -- candidate extraction: pattern 1 matches the whole string at position 0
  have htwu : (' '::c::(t ++ (' ':: '2':: '0':: '2':: '5'::[]))).takeWhile isWsChar = [' '] := by
    rw [List.takeWhile_cons, show isWsChar ' ' = true from rfl, if_pos rfl,
      List.takeWhile_cons, alpha_not_ws c hca]
    rfl
  have hdwu : (' '::c::(t ++ (' ':: '2':: '0':: '2':: '5'::[]))).dropWhile isWsChar =
      c :: (t ++ (' ':: '2':: '0':: '2':: '5'::[])) := by
    rw [List.dropWhile_cons, show isWsChar ' ' = true from rfl, if_pos rfl,
      List.dropWhile_cons, alpha_not_ws c hca]
    rfl
  have hws : mWsPlus (' ':: '2':: '0':: '2':: '5'::[]) = some ([' '], '2':: '0':: '2':: '5'::[]) := rfl
  have hd4 : mDigits 4 4 ('2':: '0':: '2':: '5'::[]) = some (['2','0','2','5'], []) := rfl
  have hclsu : mClassPlus letterClass (c :: (t ++ (' ':: '2':: '0':: '2':: '5'::[]))) =
      some (c :: t, ' ':: '2':: '0':: '2':: '5'::[]) := by
    unfold mClassPlus
    rw [List.takeWhile_cons, alpha_letterClass c hca, if_pos rfl,
      takeWhile_append_all _ t _ (fun x hx => alpha_letterClass x (hta x hx)),
      show List.takeWhile letterClass (' ':: '2':: '0':: '2':: '5'::[]) = [] from rfl,
      List.append_nil,
      List.dropWhile_cons, alpha_letterClass c hca, if_pos rfl,
      dropWhile_append_all _ t _ (fun x hx => alpha_letterClass x (hta x hx))]
    rfl
  have hclsuD : mClassPlus letterDotClass (c :: (t ++ (' ':: '2':: '0':: '2':: '5'::[]))) =
      some (c :: t, ' ':: '2':: '0':: '2':: '5'::[]) := by
    unfold mClassPlus
    rw [List.takeWhile_cons, alpha_letterDotClass c hca, if_pos rfl,
      takeWhile_append_all _ t _ (fun x hx => alpha_letterDotClass x (hta x hx)),
      show List.takeWhile letterDotClass (' ':: '2':: '0':: '2':: '5'::[]) = [] from rfl,
      List.append_nil,
      List.dropWhile_cons, alpha_letterDotClass c hca, if_pos rfl,
      dropWhile_append_all _ t _ (fun x hx => alpha_letterDotClass x (hta x hx))]
    rfl
  have hP1 : matchP1 ('2':: '7':: '.':: ' '::c::(t ++ (' ':: '2':: '0':: '2':: '5'::[]))) =
      some ('2':: '7':: '.':: ' '::c::(t ++ (' ':: '2':: '0':: '2':: '5'::[]))) := by
    rw [matchP1_27dot, hdwu, hclsu, htwu]
    simp [hws, hd4]
  have hsearch : searchM matchP1 ('2':: '7':: '.':: ' '::c::(t ++ (' ':: '2':: '0':: '2':: '5'::[]))) =
      some ('2':: '7':: '.':: ' '::c::(t ++ (' ':: '2':: '0':: '2':: '5'::[]))) := by
    simp only [searchM]
    rw [hP1]
  have hex : extractCandidate ('2':: '7':: '.':: ' '::c::(t ++ (' ':: '2':: '0':: '2':: '5'::[]))) =
      '2':: '7':: '.':: ' '::c::(t ++ (' ':: '2':: '0':: '2':: '5'::[])) := by
    unfold extractCandidate
    rw [hsearch]
  have hB3 : mB3 ('2':: '7':: '.':: ' '::c::(t ++ (' ':: '2':: '0':: '2':: '5'::[]))) =
      some (27, c :: t, 2025) := by
    rw [mB3_27dot, hdwu, hclsuD]
    simp [hws, hd4, show digitsToNat ['2','0','2','5'] = 2025 from rfl]
  have hmg2 : monthGet (String.mk (lcList (stripDotsEnds (c :: t)))) = none := by
    rw [stripDots_alpha c t halpha]
    exact hmg
  have hfin := parseCore_b3_unknown ('2':: '7':: '.':: ' '::c::(t ++ (' ':: '2':: '0':: '2':: '5'::[])))
    (c1FormA (c :: t)) 27 2025 (c :: t) hex rfl rfl rfl hB3 hmg2
  rw [stripDots_alpha c t halpha] at hfin
  unfold parse_date
  rw [hpre, hcomma]
  exact hfin



theorem matchP2_04sp (u : List Char) : matchP2 ('0':: '4':: ' '::u) =
    (match mClassPlus letterClass (u.dropWhile isWsChar) with
     | none => none
     | some (ls, r3) =>
       let dr := match r3 with
         | '.' :: rr => ((['.'] : List Char), rr)
         | _ => (([] : List Char), r3)
       match mWsPlus dr.2 with
       | none => none
       | some (w2, r5) =>
         match mDigits 4 4 r5 with
         | none => none
         | some (y, _) =>
           some (['0','4'] ++ (' ' :: u.takeWhile isWsChar) ++ ls ++ dr.1 ++ w2 ++ y)) := rfl

theorem mB1_04sp (u : List Char) : mB1 ('0':: '4':: ' '::u) =
    (match mClassPlus letterDotClass (u.dropWhile isWsChar) with
     | none => none
     | some (g2, r2) =>
       match mWsPlus r2 with
       | none => none
       | some (_, r3) =>
         match mDigits 4 4 r3 with
         | some (y, []) => some (4, g2, digitsToNat y)
         | _ => none) := rfl

theorem parseCore_b1_unknown (l : List Char) (orig : String) (d y : Nat) (g2 : List Char)
    (hex2 : extractCandidate l = l) (hiso : isoTHead l = false)
    (h1 : mB1 l = some (d, g2, y))
    (hmg : monthGet (String.mk (lcList (stripDotsEnds g2))) = none) :
    parseCore l orig =
      Except.error (unknownMonthMsg (String.mk (lcList (stripDotsEnds g2))) orig) := by
  simp only [parseCore]
  rw [hex2]
  rw [if_neg (show ¬ isoTHead l = true from by rw [hiso]; exact Bool.false_ne_true)]
  rw [h1]
  simp only []
  rw [hmg]

theorem parseCore_b2_unknown (l : List Char) (orig : String) (g1 : List Char) (d y : Nat)
    (hex2 : extractCandidate l = l) (hiso : isoTHead l = false)
    (h1 : mB1 l = none) (h2 : mB2 l = some (g1, d, y))
    (hmg : monthGet (String.mk (lcList (stripDotsEnds g1))) = none) :
    parseCore l orig =
      Except.error (unknownMonthMsg (String.mk (lcList (stripDotsEnds g1))) orig) := by
  simp only [parseCore]
  rw [hex2]
  rw [if_neg (show ¬ isoTHead l = true from by rw [hiso]; exact Bool.false_ne_true)]
  rw [h1, h2]
  simp only []
  rw [hmg]

/-- Shape "04 TOK 2025" with an unknown alphabetic month token: the parse
fails with the unknown-month error naming the lowercased token. -/
theorem c1_shapeC (tok : List Char) (hne : tok ≠ [])
    (halpha : ∀ x ∈ tok, isAsciiAlpha x = true)
    (hmg : monthGet (String.mk (lcList tok)) = none)
    (hlc : lcList tok ≠ ['u', 'h', 'r']) :
    parse_date (c1FormC tok) =
      Except.error (unknownMonthMsg (String.mk (lcList tok)) (c1FormC tok)) := by
  obtain ⟨c, t, rfl⟩ : ∃ c t, tok = c :: t := by
    cases tok with
    | nil => exact absurd rfl hne
    | cons c t => exact ⟨c, t, rfl⟩
  have hca : isAsciiAlpha c = true := halpha c (List.mem_cons_self _ _)
  have hta : ∀ x ∈ t, isAsciiAlpha x = true :=
    fun x hx => halpha x (List.mem_cons_of_mem c hx)
  have hdata : (c1FormC (c :: t)).data =
      '0':: '4':: ' '::c::(t ++ (' ':: '2':: '0':: '2':: '5'::[])) := by
    show "04 ".data ++ (c :: t) ++ " 2025".data = _
    rw [show "04 ".data = ['0','4',' '] from rfl,
      show " 2025".data = [' ','2','0','2','5'] from rfl]
    simp
  have hnorm : ('0':: '4':: ' '::c::(t ++ (' ':: '2':: '0':: '2':: '5'::[]))).map normChar =
      '0':: '4':: ' '::c::(t ++ (' ':: '2':: '0':: '2':: '5'::[])) := by
    apply map_id_of_mem
    intro x hx
    simp only [List.mem_cons, List.mem_append] at hx
    rcases hx with rfl | rfl | rfl | rfl | hx | rfl | rfl | rfl | rfl | rfl | hx
    · rfl
    · rfl
    · rfl
    · exact normChar_small x (by
        rcases alpha_bounds x hca with ⟨h1, h2⟩ | ⟨h1, h2⟩ <;> omega)
    · exact normChar_small x (by
        rcases alpha_bounds x (hta x hx) with ⟨h1, h2⟩ | ⟨h1, h2⟩ <;> omega)
    · rfl
    · rfl
    · rfl
    · rfl
    · rfl
    · cases hx
  have hremove : removeUhr ('0':: '4':: ' '::c::(t ++ (' ':: '2':: '0':: '2':: '5'::[]))) =
      '0':: '4':: ' '::c::(t ++ (' ':: '2':: '0':: '2':: '5'::[])) := by
    unfold removeUhr
    rw [removeUhrGo_cons false '0' _
        (by rw [Bool.not_false, Bool.true_and]; exact uhrHere_not_u '0' _ (by decide)),
      show isWordChar '0' = true from rfl,
      removeUhrGo_cons true '4' _ (by simp),
      show isWordChar '4' = true from rfl,
      removeUhrGo_cons true ' ' _ (by simp),
      show isWordChar ' ' = false from rfl,
      show c::(t ++ (' ':: '2':: '0':: '2':: '5'::[])) =
        (c :: t) ++ (' ':: '2':: '0':: '2':: '5'::[]) from rfl]
    rw [removeUhrGo_false_tok (c :: t) (' ':: '2':: '0':: '2':: '5'::[]) (by simp) halpha hlc
        (fun r hr => by
          rw [List.head?_cons] at hr
          rw [← Option.some.inj hr]
          rfl),
      show removeUhrGo true (' ':: '2':: '0':: '2':: '5'::[]) = ' ':: '2':: '0':: '2':: '5'::[] from rfl]
  have hstrip : pstrip ('0':: '4':: ' '::c::(t ++ (' ':: '2':: '0':: '2':: '5'::[]))) =
      '0':: '4':: ' '::c::(t ++ (' ':: '2':: '0':: '2':: '5'::[])) := by
    have hl : ('0':: '4':: ' '::c::(t ++ (' ':: '2':: '0':: '2':: '5'::[]))).getLast? = some '5' := by
      rw [show '0':: '4':: ' '::c::(t ++ (' ':: '2':: '0':: '2':: '5'::[])) =
          ['0','4',' '] ++ ((c :: t) ++ (' ':: '2':: '0':: '2':: '5'::[])) from by simp,
        getLast_append_right _ _ (by simp),
        getLast_append_right _ _ (by simp)]
      rfl
    rw [pstrip_eq_stripChars]
    exact stripCharsL_id isWsChar ('0':: '4':: ' '::c::(t ++ (' ':: '2':: '0':: '2':: '5'::[])))
      '0' '5' rfl rfl hl rfl
  have hweek : weekdaySub ('0':: '4':: ' '::c::(t ++ (' ':: '2':: '0':: '2':: '5'::[]))) =
      '0':: '4':: ' '::c::(t ++ (' ':: '2':: '0':: '2':: '5'::[])) := by
    unfold weekdaySub
    rw [firstTok_head0]
  have hcomma : commaStep ('0':: '4':: ' '::c::(t ++ (' ':: '2':: '0':: '2':: '5'::[]))) =
      '0':: '4':: ' '::c::(t ++ (' ':: '2':: '0':: '2':: '5'::[])) := by
    apply commaStep_no_comma
    intro x hx
    simp only [List.mem_cons, List.mem_append] at hx
    rcases hx with rfl | rfl | rfl | rfl | hx | rfl | rfl | rfl | rfl | rfl | hx
    · decide
    · decide
    · decide
    · exact alpha_ne_comma x hca
    · exact alpha_ne_comma x (hta x hx)
    · decide
    · decide
    · decide
    · decide
    · decide
    · cases hx
  have hpre : preprocess (c1FormC (c :: t)) =
      '0':: '4':: ' '::c::(t ++ (' ':: '2':: '0':: '2':: '5'::[])) := by
    unfold preprocess
    rw [hdata, hnorm, hremove, hstrip, hweek, hstrip]
  have htwc : (c :: (t ++ (' ':: '2':: '0':: '2':: '5'::[]))).takeWhile isWsChar = [] := by
    rw [List.takeWhile_cons, alpha_not_ws c hca]
    rfl
  have hdwc : (c :: (t ++ (' ':: '2':: '0':: '2':: '5'::[]))).dropWhile isWsChar =
      c :: (t ++ (' ':: '2':: '0':: '2':: '5'::[])) := by
    rw [List.dropWhile_cons, alpha_not_ws c hca]
    rfl
  have hws : mWsPlus (' ':: '2':: '0':: '2':: '5'::[]) = some ([' '], '2':: '0':: '2':: '5'::[]) := rfl
  have hd4 : mDigits 4 4 ('2':: '0':: '2':: '5'::[]) = some (['2','0','2','5'], []) := rfl
  have hclsu : mClassPlus letterClass (c :: (t ++ (' ':: '2':: '0':: '2':: '5'::[]))) =
      some (c :: t, ' ':: '2':: '0':: '2':: '5'::[]) := by
    unfold mClassPlus
    rw [List.takeWhile_cons, alpha_letterClass c hca, if_pos rfl,
      takeWhile_append_all _ t _ (fun x hx => alpha_letterClass x (hta x hx)),
      show List.takeWhile letterClass (' ':: '2':: '0':: '2':: '5'::[]) = [] from rfl,
      List.append_nil,
      List.dropWhile_cons, alpha_letterClass c hca, if_pos rfl,
      dropWhile_append_all _ t _ (fun x hx => alpha_letterClass x (hta x hx))]
    rfl
  have hclsuD : mClassPlus letterDotClass (c :: (t ++ (' ':: '2':: '0':: '2':: '5'::[]))) =
      some (c :: t, ' ':: '2':: '0':: '2':: '5'::[]) := by
    unfold mClassPlus
    rw [List.takeWhile_cons, alpha_letterDotClass c hca, if_pos rfl,
      takeWhile_append_all _ t _ (fun x hx => alpha_letterDotClass x (hta x hx)),
      show List.takeWhile letterDotClass (' ':: '2':: '0':: '2':: '5'::[]) = [] from rfl,
      List.append_nil,
      List.dropWhile_cons, alpha_letterDotClass c hca, if_pos rfl,
      dropWhile_append_all _ t _ (fun x hx => alpha_letterDotClass x (hta x hx))]
    rfl
  have hm0 : matchP1 ('0':: '4':: ' '::c::(t ++ (' ':: '2':: '0':: '2':: '5'::[]))) = none := rfl
  have hm4 : matchP1 ('4':: ' '::c::(t ++ (' ':: '2':: '0':: '2':: '5'::[]))) = none := rfl
  have hmsp : matchP1 (' '::c::(t ++ (' ':: '2':: '0':: '2':: '5'::[]))) = none := rfl
  have hmc : matchP1 (c::(t ++ (' ':: '2':: '0':: '2':: '5'::[]))) = none := matchP1_alpha c _ hca
  have hs1 : searchM matchP1 ('0':: '4':: ' '::c::(t ++ (' ':: '2':: '0':: '2':: '5'::[]))) = none := by
    simp only [searchM]
    rw [hm0, hm4, hmsp, hmc]
    simp only []
    rw [searchM_append_skip matchP1 t (' ':: '2':: '0':: '2':: '5'::[])
      (fun x hx xs => matchP1_alpha x xs (hta x hx))]
    rfl
  have hmP2 : matchP2 ('0':: '4':: ' '::c::(t ++ (' ':: '2':: '0':: '2':: '5'::[]))) =
      some ('0':: '4':: ' '::c::(t ++ (' ':: '2':: '0':: '2':: '5'::[]))) := by
    rw [matchP2_04sp, hdwc, hclsu, htwc]
    simp [hws, hd4]
  have hs2 : searchM matchP2 ('0':: '4':: ' '::c::(t ++ (' ':: '2':: '0':: '2':: '5'::[]))) =
      some ('0':: '4':: ' '::c::(t ++ (' ':: '2':: '0':: '2':: '5'::[]))) := by
    simp only [searchM]
    rw [hmP2]
  have hex : extractCandidate ('0':: '4':: ' '::c::(t ++ (' ':: '2':: '0':: '2':: '5'::[]))) =
      '0':: '4':: ' '::c::(t ++ (' ':: '2':: '0':: '2':: '5'::[])) := by
    unfold extractCandidate
    rw [hs1, hs2]
  have hB1 : mB1 ('0':: '4':: ' '::c::(t ++ (' ':: '2':: '0':: '2':: '5'::[]))) =
      some (4, c :: t, 2025) := by
    rw [mB1_04sp, hdwc, hclsuD]
    simp [hws, hd4, show digitsToNat ['2','0','2','5'] = 2025 from rfl]
  have hmg2 : monthGet (String.mk (lcList (stripDotsEnds (c :: t)))) = none := by
    rw [stripDots_alpha c t halpha]
    exact hmg
  have hfin := parseCore_b1_unknown ('0':: '4':: ' '::c::(t ++ (' ':: '2':: '0':: '2':: '5'::[])))
    (c1FormC (c :: t)) 4 2025 (c :: t) hex rfl hB1 hmg2
  rw [stripDots_alpha c t halpha] at hfin
  unfold parse_date
  rw [hpre, hcomma]
  exact hfin

/-- Shape "TOK 18, 2025" with an unknown alphabetic month token that the
weekday-prefix regex does not match: the parse fails with the unknown-month
error naming the lowercased token. -/
theorem c1_shapeB (tok : List Char) (hne : tok ≠ [])
    (halpha : ∀ x ∈ tok, isAsciiAlpha x = true)
    (hmg : monthGet (String.mk (lcList tok)) = none)
    (hlc : lcList tok ≠ ['u', 'h', 'r'])
    (hwd1 : firstTok WEEKDAY_TOKENS (tok ++ (' ':: '1':: '8':: ',':: ' ':: '2':: '0':: '2':: '5'::[])) = none)
    (hwd2 : firstTok WEEKDAY_TOKENS (tok ++ (' ':: '1':: '8':: ' '::[])) = none) :
    parse_date (c1FormB tok) =
      Except.error (unknownMonthMsg (String.mk (lcList tok)) (c1FormB tok)) := by
  obtain ⟨c, t, rfl⟩ : ∃ c t, tok = c :: t := by
    cases tok with
    | nil => exact absurd rfl hne
    | cons c t => exact ⟨c, t, rfl⟩
  have hca : isAsciiAlpha c = true := halpha c (List.mem_cons_self _ _)
  have hta : ∀ x ∈ t, isAsciiAlpha x = true :=
    fun x hx => halpha x (List.mem_cons_of_mem c hx)
  have hdata : (c1FormB (c :: t)).data =
      c::(t ++ (' ':: '1':: '8':: ',':: ' ':: '2':: '0':: '2':: '5'::[])) := by
    show (c :: t) ++ " 18, 2025".data = _
    rw [show " 18, 2025".data = [' ','1','8',',',' ','2','0','2','5'] from rfl]
    simp
  have hnorm : (c::(t ++ (' ':: '1':: '8':: ',':: ' ':: '2':: '0':: '2':: '5'::[]))).map normChar =
      c::(t ++ (' ':: '1':: '8':: ',':: ' ':: '2':: '0':: '2':: '5'::[])) := by
    apply map_id_of_mem
    intro x hx
    simp only [List.mem_cons, List.mem_append] at hx
    rcases hx with rfl | hx | rfl | rfl | rfl | rfl | rfl | rfl | rfl | rfl | rfl | hx
    · exact normChar_small x (by
        rcases alpha_bounds x hca with ⟨h1, h2⟩ | ⟨h1, h2⟩ <;> omega)
    · exact normChar_small x (by
        rcases alpha_bounds x (hta x hx) with ⟨h1, h2⟩ | ⟨h1, h2⟩ <;> omega)
    · rfl
    · rfl
    · rfl
    · rfl
    · rfl
    · rfl
    · rfl
    · rfl
    · rfl
    · cases hx
  have hremove : removeUhr (c::(t ++ (' ':: '1':: '8':: ',':: ' ':: '2':: '0':: '2':: '5'::[]))) =
      c::(t ++ (' ':: '1':: '8':: ',':: ' ':: '2':: '0':: '2':: '5'::[])) := by
    unfold removeUhr
    rw [show c::(t ++ (' ':: '1':: '8':: ',':: ' ':: '2':: '0':: '2':: '5'::[])) =
        (c :: t) ++ (' ':: '1':: '8':: ',':: ' ':: '2':: '0':: '2':: '5'::[]) from rfl]
    rw [removeUhrGo_false_tok (c :: t) (' ':: '1':: '8':: ',':: ' ':: '2':: '0':: '2':: '5'::[])
        (by simp) halpha hlc
        (fun r hr => by
          rw [List.head?_cons] at hr
          rw [← Option.some.inj hr]
          rfl),
      show removeUhrGo true (' ':: '1':: '8':: ',':: ' ':: '2':: '0':: '2':: '5'::[]) =
        ' ':: '1':: '8':: ',':: ' ':: '2':: '0':: '2':: '5'::[] from rfl]
  have hstrip : pstrip (c::(t ++ (' ':: '1':: '8':: ',':: ' ':: '2':: '0':: '2':: '5'::[]))) =
      c::(t ++ (' ':: '1':: '8':: ',':: ' ':: '2':: '0':: '2':: '5'::[])) := by
    have hl : (c::(t ++ (' ':: '1':: '8':: ',':: ' ':: '2':: '0':: '2':: '5'::[]))).getLast? =
        some '5' := by
      rw [show c::(t ++ (' ':: '1':: '8':: ',':: ' ':: '2':: '0':: '2':: '5'::[])) =
          (c :: t) ++ (' ':: '1':: '8':: ',':: ' ':: '2':: '0':: '2':: '5'::[]) from rfl,
        getLast_append_right _ _ (by simp)]
      rfl
    rw [pstrip_eq_stripChars]
    exact stripCharsL_id isWsChar (c::(t ++ (' ':: '1':: '8':: ',':: ' ':: '2':: '0':: '2':: '5'::[])))
      c '5' rfl (alpha_not_ws c hca) hl rfl
  have hweek : weekdaySub (c::(t ++ (' ':: '1':: '8':: ',':: ' ':: '2':: '0':: '2':: '5'::[]))) =
      c::(t ++ (' ':: '1':: '8':: ',':: ' ':: '2':: '0':: '2':: '5'::[])) := by
    unfold weekdaySub
    rw [show c::(t ++ (' ':: '1':: '8':: ',':: ' ':: '2':: '0':: '2':: '5'::[])) =
        (c :: t) ++ (' ':: '1':: '8':: ',':: ' ':: '2':: '0':: '2':: '5'::[]) from rfl, hwd1]
  have hpre : preprocess (c1FormB (c :: t)) =
      c::(t ++ (' ':: '1':: '8':: ',':: ' ':: '2':: '0':: '2':: '5'::[])) := by
    unfold preprocess
    rw [hdata, hnorm, hremove, hstrip, hweek, hstrip]
  have hstripH : pstrip ((c :: t) ++ (' ':: '1':: '8'::[])) = (c :: t) ++ (' ':: '1':: '8'::[]) := by
    have hl : ((c :: t) ++ (' ':: '1':: '8'::[])).getLast? = some '8' :=
      Eq.trans (getLast_append_right (c :: t) (' ':: '1':: '8'::[]) (by simp))
        (show (' ':: '1':: '8'::([] : List Char)).getLast? = some '8' from rfl)
    rw [pstrip_eq_stripChars]
    exact stripCharsL_id isWsChar ((c :: t) ++ (' ':: '1':: '8'::[]))
      c '8' rfl (alpha_not_ws c hca) hl rfl
  have h4dig : has4Digits ((c :: t) ++ (' ':: '1':: '8'::[])) = false := by
    unfold has4Digits
    rw [digitRunGo_zero_append (c :: t) _ (fun x hx => alpha_not_digit x (halpha x hx))]
    rfl
  have hhit : weekdayHit (pstrip ((c :: t) ++ (' ':: '1':: '8'::[])) ++ [' ']) = false := by
    rw [hstripH,
      show ((c :: t) ++ (' ':: '1':: '8'::[])) ++ [' '] = (c :: t) ++ (' ':: '1':: '8':: ' '::[])
        from by simp]
    unfold weekdayHit
    rw [hwd2]
    rfl
  have hcomma : commaStep (c::(t ++ (' ':: '1':: '8':: ',':: ' ':: '2':: '0':: '2':: '5'::[]))) =
      c::(t ++ (' ':: '1':: '8':: ',':: ' ':: '2':: '0':: '2':: '5'::[])) := by
    rw [show c::(t ++ (' ':: '1':: '8':: ',':: ' ':: '2':: '0':: '2':: '5'::[])) =
        ((c :: t) ++ (' ':: '1':: '8'::[])) ++ ',' :: (' ':: '2':: '0':: '2':: '5'::[]) from by simp]
    rw [commaStep_eq _ _ (fun x hx => by
      rcases List.mem_append.mp hx with hx1 | hx2
      · exact alpha_ne_comma x (halpha x hx1)
      · simp only [List.mem_cons] at hx2
        rcases hx2 with rfl | rfl | rfl | hx2
        · decide
        · decide
        · decide
        · cases hx2)]
    rw [h4dig, show (!false) = true from rfl, if_pos rfl, hhit, if_neg Bool.false_ne_true]
  have hs1 : searchM matchP1 (c::(t ++ (' ':: '1':: '8':: ',':: ' ':: '2':: '0':: '2':: '5'::[]))) =
      none := by
    rw [show c::(t ++ (' ':: '1':: '8':: ',':: ' ':: '2':: '0':: '2':: '5'::[])) =
        (c :: t) ++ (' ':: '1':: '8':: ',':: ' ':: '2':: '0':: '2':: '5'::[]) from rfl,
      searchM_append_skip matchP1 (c :: t) _ (fun x hx xs => matchP1_alpha x xs (halpha x hx))]
    rfl
  have hs2 : searchM matchP2 (c::(t ++ (' ':: '1':: '8':: ',':: ' ':: '2':: '0':: '2':: '5'::[]))) =
      none := by
    rw [show c::(t ++ (' ':: '1':: '8':: ',':: ' ':: '2':: '0':: '2':: '5'::[])) =
        (c :: t) ++ (' ':: '1':: '8':: ',':: ' ':: '2':: '0':: '2':: '5'::[]) from rfl,
      searchM_append_skip matchP2 (c :: t) _ (fun x hx xs => matchP2_alpha x xs (halpha x hx))]
    rfl
  have hs3 : searchM matchP3 (c::(t ++ (' ':: '1':: '8':: ',':: ' ':: '2':: '0':: '2':: '5'::[]))) =
      none := by
    rw [show c::(t ++ (' ':: '1':: '8':: ',':: ' ':: '2':: '0':: '2':: '5'::[])) =
        (c :: t) ++ (' ':: '1':: '8':: ',':: ' ':: '2':: '0':: '2':: '5'::[]) from rfl,
      searchM_append_skip matchP3 (c :: t) _ (fun x hx xs => matchP3_alpha x xs (halpha x hx))]
    rfl
  have hs4 : searchM matchP4 (c::(t ++ (' ':: '1':: '8':: ',':: ' ':: '2':: '0':: '2':: '5'::[]))) =
      none := by
    rw [show c::(t ++ (' ':: '1':: '8':: ',':: ' ':: '2':: '0':: '2':: '5'::[])) =
        (c :: t) ++ (' ':: '1':: '8':: ',':: ' ':: '2':: '0':: '2':: '5'::[]) from rfl,
      searchM_append_skip matchP4 (c :: t) _ (fun x hx xs => matchP4_alpha x xs (halpha x hx))]
    rfl
  have hex : extractCandidate (c::(t ++ (' ':: '1':: '8':: ',':: ' ':: '2':: '0':: '2':: '5'::[]))) =
      c::(t ++ (' ':: '1':: '8':: ',':: ' ':: '2':: '0':: '2':: '5'::[])) := by
    unfold extractCandidate
    rw [hs1, hs2, hs3, hs4]
  have hiso : isoTHead (c::(t ++ (' ':: '1':: '8':: ',':: ' ':: '2':: '0':: '2':: '5'::[]))) = false := by
    unfold isoTHead
    rw [mDigits_none 4 4 (by omega) c _ (alpha_not_digit c hca)]
  have hb1 : mB1 (c::(t ++ (' ':: '1':: '8':: ',':: ' ':: '2':: '0':: '2':: '5'::[]))) = none := by
    unfold mB1
    rw [mDigits_none 1 2 (by omega) c _ (alpha_not_digit c hca)]
  have hclsuB : mClassPlus letterDotClass
      (c::(t ++ (' ':: '1':: '8':: ',':: ' ':: '2':: '0':: '2':: '5'::[]))) =
      some (c :: t, ' ':: '1':: '8':: ',':: ' ':: '2':: '0':: '2':: '5'::[]) := by
    unfold mClassPlus
    rw [List.takeWhile_cons, alpha_letterDotClass c hca, if_pos rfl,
      takeWhile_append_all _ t _ (fun x hx => alpha_letterDotClass x (hta x hx)),
      show List.takeWhile letterDotClass (' ':: '1':: '8':: ',':: ' ':: '2':: '0':: '2':: '5'::[]) = []
        from rfl,
      List.append_nil,
      List.dropWhile_cons, alpha_letterDotClass c hca, if_pos rfl,
      dropWhile_append_all _ t _ (fun x hx => alpha_letterDotClass x (hta x hx))]
    rfl
  have hb2 : mB2 (c::(t ++ (' ':: '1':: '8':: ',':: ' ':: '2':: '0':: '2':: '5'::[]))) =
      some (c :: t, 18, 2025) := by
    unfold mB2
    rw [hclsuB]
    rfl
  have hmg2 : monthGet (String.mk (lcList (stripDotsEnds (c :: t)))) = none := by
    rw [stripDots_alpha c t halpha]
    exact hmg
  have hfin := parseCore_b2_unknown (c::(t ++ (' ':: '1':: '8':: ',':: ' ':: '2':: '0':: '2':: '5'::[])))
    (c1FormB (c :: t)) (c :: t) 18 2025 hex hiso hb1 hb2 hmg2
  rw [stripDots_alpha c t halpha] at hfin
  unfold parse_date
  rw [hpre, hcomma]
  exact hfin


/-- Claim C1, amended: each supported date form parses to its canonical date
under every weekday/Uhr decoration except when a dotted English weekday
abbreviation ("mon.", "fri.", "sat.") precedes the "Nov 18, 2025" form, where
the wildcard dot of the unescaped weekday token strands a "." and the parse
fails with "Unrecognized date format"; and an input in any of the three
month-name shapes whose alphabetic month token is not in the month table
(and, for the "TOK 18, 2025" shape, is not matched by the weekday regex)
fails with "Unknown month:" naming the lowercased token. -/
theorem claim_C1 :
    (∀ p ∈ c1Good, parse_date p.1 = Except.ok p.2) ∧
    (∀ s ∈ c1Bad, parse_date s = Except.error (unrecognizedMsg s)) ∧
    (∀ tok : List Char, tok ≠ [] →
      (∀ x ∈ tok, isAsciiAlpha x = true) →
      monthGet (String.mk (lcList tok)) = none →
      lcList tok ≠ ['u', 'h', 'r'] →
      parse_date (c1FormA tok) =
        Except.error (unknownMonthMsg (String.mk (lcList tok)) (c1FormA tok)) ∧
      parse_date (c1FormC tok) =
        Except.error (unknownMonthMsg (String.mk (lcList tok)) (c1FormC tok)) ∧
      (firstTok WEEKDAY_TOKENS (tok ++ (' ':: '1':: '8':: ',':: ' ':: '2':: '0':: '2':: '5'::[])) =
          none →
       firstTok WEEKDAY_TOKENS (tok ++ (' ':: '1':: '8':: ' '::[])) = none →
       parse_date (c1FormB tok) =
         Except.error (unknownMonthMsg (String.mk (lcList tok)) (c1FormB tok)))) := by
  refine ⟨by decide, by decide, ?_⟩
  intro tok hne halpha hmg hlc
  exact ⟨c1_shapeA tok hne halpha hmg hlc, c1_shapeC tok hne halpha hmg hlc,
    fun hwd1 hwd2 => c1_shapeB tok hne halpha hmg hlc hwd1 hwd2⟩

/-- Claim C1 counterexample: the spec promises every weekday decoration
parses, but "Mon. Nov 18, 2025" is rejected (the unescaped "mo." token eats
"Mon" and strands "."), "Monmay 18, 2025" silently parses as May ("mo." eats
"Mon" and the remainder "may 18, 2025" is accepted), and the unknown month
token "Uhr" is not named in an error: the Uhr-removal step deletes it first.
-/
theorem claim_C1_counterexample :
    parse_date "Mon. Nov 18, 2025" =
      Except.error "Unrecognized date format: Mon. Nov 18, 2025" ∧
    parse_date "Monmay 18, 2025" = Except.ok "2025-05-18" ∧
    parse_date "27. Uhr 2025" = Except.error "Unrecognized date format: 27. Uhr 2025" :=
  ⟨rfl, rfl, rfl⟩

/-- Concrete instances of claim C1: a decorated good form, a rejected dotted
weekday form, and the three symbolic shapes at the unknown token "Brumaire".
-/
theorem claim_C1_witness :
    parse_date "montag, 27.11.2025" = Except.ok "2025-11-27" ∧
    parse_date "mon. Nov 18, 2025" =
      Except.error "Unrecognized date format: mon. Nov 18, 2025" ∧
    parse_date "27. Brumaire 2025" =
      Except.error "Unknown month: brumaire in 27. Brumaire 2025" ∧
    parse_date "04 Brumaire 2025" =
      Except.error "Unknown month: brumaire in 04 Brumaire 2025" ∧
    parse_date "Brumaire 18, 2025" =
      Except.error "Unknown month: brumaire in Brumaire 18, 2025" := by
  refine ⟨claim_C1.1 ("montag, 27.11.2025", "2025-11-27") (by decide),
    claim_C1.2.1 "mon. Nov 18, 2025" (by decide), ?_, ?_, ?_⟩
  · exact (claim_C1.2.2 "Brumaire".data (by decide) (by decide) (by decide) (by decide)).1
  · exact (claim_C1.2.2 "Brumaire".data (by decide) (by decide) (by decide) (by decide)).2.1
  · exact (claim_C1.2.2 "Brumaire".data (by decide) (by decide) (by decide)
      (by decide)).2.2 (by decide) (by decide)

end Seminars
